import Mathlib

/-!
# ec2-price-exporter: scrape orchestration and cost normalisation

A shallow embedding of `exporter/instances.go`, `exporter/spot.go`,
`exporter/ondemand.go`, `exporter/savingplan.go` and `exporter/exporter.go`.

Modelling conventions.

* `float64` is `F64`: a finite value is an exact rational, next to the IEEE-754
  special values `+Inf`, `-Inf` and `NaN`.  Rounding, overflow of finite results
  and the sign of zero are not modelled; what a division by zero returns is.
* `int64`/`int32` catalog fields are `Int`; the `int64` division is `Int.tdiv`
  (Go truncates toward zero).
* A Go map read is a total function with the zero value for a missing key.
* `log.Fatalf` and a run-time panic end the process: fallible code returns
  `Except Abort _`.
* What is sent on the `scrapes` channel is the list of sent values, in order.
-/

namespace Ec2PriceExporter

/-! ## float64 -/

/-- A `float64` value: finite (an exact rational) or one of the IEEE specials. -/
inductive F64 where
  | fin (q : ℚ)
  | posInf
  | negInf
  | nan
deriving DecidableEq

namespace F64

/-- The conversion `float64(i)` of an integer. -/
def ofInt (i : Int) : F64 := fin (i : ℚ)

/-- The sign applied to an infinity: `+Inf` for `true`, `-Inf` for `false`. -/
def inf (positive : Bool) : F64 := if positive then posInf else negInf

/-- IEEE addition (`Inf + -Inf = NaN`). -/
def add : F64 → F64 → F64
  | nan, _ => nan
  | _, nan => nan
  | fin a, fin b => fin (a + b)
  | fin _, posInf => posInf
  | fin _, negInf => negInf
  | posInf, fin _ => posInf
  | negInf, fin _ => negInf
  | posInf, posInf => posInf
  | negInf, negInf => negInf
  | posInf, negInf => nan
  | negInf, posInf => nan

/-- IEEE multiplication (`0 * Inf = NaN`). -/
def mul : F64 → F64 → F64
  | nan, _ => nan
  | _, nan => nan
  | fin a, fin b => fin (a * b)
  | fin a, posInf => if a = 0 then nan else inf (decide (0 < a))
  | fin a, negInf => if a = 0 then nan else inf (decide (a < 0))
  | posInf, fin b => if b = 0 then nan else inf (decide (0 < b))
  | negInf, fin b => if b = 0 then nan else inf (decide (b < 0))
  | posInf, posInf => posInf
  | negInf, negInf => posInf
  | posInf, negInf => negInf
  | negInf, posInf => negInf

/-- IEEE division: `x / 0` is `+Inf` or `-Inf` by the sign of `x`, `0 / 0` is
`NaN`; nothing panics. -/
def div : F64 → F64 → F64
  | nan, _ => nan
  | _, nan => nan
  | fin a, fin b =>
    if b = 0 then (if a = 0 then nan else inf (decide (0 < a))) else fin (a / b)
  | fin _, posInf => fin 0
  | fin _, negInf => fin 0
  | posInf, fin b => inf (decide (0 ≤ b))
  | negInf, fin b => inf (decide (b < 0))
  | posInf, posInf => nan
  | negInf, negInf => nan
  | posInf, negInf => nan
  | negInf, posInf => nan

end F64

/-! ## instances.go -/

/-- The constant `cpuMemRelation = 7.2` (instances.go:24). -/
def cpuMemRelation : F64 := F64.fin (36 / 5)

/-- The catalog entry `Instance{Memory int64 (MiB), VCpu int32}` (its fields as
instances.go:41-44 fills them). -/
structure Instance where
  Memory : Int
  VCpu : Int
deriving DecidableEq

/-- The map `e.instances`: `none` for a key that is absent. -/
abbrev Catalog := String → Option Instance

/-- The map read `e.instances[instance]`: the zero `Instance` for an absent key. -/
def Catalog.get (c : Catalog) (instanceName : String) : Instance :=
  (c instanceName).getD ⟨0, 0⟩

/-- The divisor `cpuMemRelation*float64(vcpu) + float64(memory)` of
instances.go:61, with `memory := Memory / 1024` in `int64` (instances.go:59). -/
def normalizedDivisor (i : Instance) : F64 :=
  F64.add (F64.mul cpuMemRelation (F64.ofInt i.VCpu)) (F64.ofInt (Int.tdiv i.Memory 1024))

/-- The function `getNormalizedCost` (instances.go:57-65): returns
`(vcpuCost, memoryCost)`. -/
def getNormalizedCost (instances : Catalog) (value : F64) (instanceName : String) : F64 × F64 :=
  let vcpu := (instances.get instanceName).VCpu
  let memory := Int.tdiv (instances.get instanceName).Memory 1024
  let memoryCost := F64.div value (F64.add (F64.mul cpuMemRelation (F64.ofInt vcpu)) (F64.ofInt memory))
  let vcpuCost := F64.mul cpuMemRelation memoryCost
  (vcpuCost, memoryCost)

/-- The empty catalog (what `getInstances` leaves when its first page fails). -/
def emptyCatalog : Catalog := fun _ => none

/-- A catalog with a single entry. -/
def singleCatalog (name : String) (i : Instance) : Catalog :=
  fun k => if k = name then some i else none

/-! ## The exporter, its observations and the metric set (exporter.go) -/

/-- How the process ends early: `log.Fatalf` (which exits), a run-time panic, or
`fuel`, the bound this model puts on the `for` loop of savingplan.go:49 (not a
behaviour of the program). -/
inductive Abort where
  | fatal
  | panic
  | fuel
deriving DecidableEq

/-- The struct `scrapeResult` (exporter.go:34-45), with the three savings-plan
fields that savingplan.go:89-91 sets. -/
structure scrapeResult where
  Name : String
  Value : F64
  Region : String := ""
  AvailabilityZone : String := ""
  InstanceType : String := ""
  InstanceLifecycle : String := ""
  ProductDescription : String := ""
  OperatingSystem : String := ""
  Memory : String := ""
  VCpu : String := ""
  SavingPlanOption : String := ""
  SavingPlanDuration : Int := 0
  SavingPlanType : String := ""
deriving DecidableEq

/-- A `*prometheus.GaugeVec`: its variable label names and, per tuple of label
values, the current gauge value. -/
structure GaugeVec where
  labelNames : List String
  metrics : List String → Option F64

/-- The call `prometheus.NewGaugeVec(opts, labelNames)`: no children yet. -/
def NewGaugeVec (labelNames : List String) : GaugeVec :=
  ⟨labelNames, fun _ => none⟩

/-- A `prometheus.Labels` map literal. -/
abbrev Labels := List (String × String)

/-- The values of `labels` in the order of `names`; `none` when a name is missing. -/
def labelValues (labels : Labels) : List String → Option (List String)
  | [] => some []
  | n :: ns =>
    match labels.lookup n, labelValues labels ns with
    | some v, some vs => some (v :: vs)
    | _, _ => none

/-- The call `vec.With(labels).Set(v)`: `With` panics unless `labels` has exactly
the variable labels of the vector. -/
def GaugeVec.WithSet (g : GaugeVec) (labels : Labels) (v : F64) : Except Abort GaugeVec :=
  if labels.length ≠ g.labelNames.length then .error .panic
  else
    match labelValues labels g.labelNames with
    | none => .error .panic
    | some lvs => .ok { g with metrics := fun k => if k = lvs then some v else g.metrics k }

/-- A compiled `*regexp.Regexp`, as its `MatchString`. -/
abbrev Regexp := String → Bool

/-- The map `e.pricingMetrics`. -/
abbrev MetricSet := String → Option GaugeVec

/-- The struct `Exporter` (exporter.go:16-32), with the fields `instanceRegexes`
and `savingPlanTypes` that spot.go:31 and savingplan.go:29 read; gauges and the
counter are their current values. -/
structure Exporter where
  productDescriptions : List String
  operatingSystems : List String
  regions : List String
  lifecycle : List String
  instanceRegexes : List Regexp
  savingPlanTypes : List String
  duration : F64
  scrapeErrors : F64
  totalScrapes : Nat
  pricingMetrics : MetricSet
  instances : Catalog
  cache : Int
  nextScrape : Int
  errorCount : Nat

/-- The label names of the `ec2` family (exporter.go:92). -/
def ec2Labels : List String :=
  ["instance_lifecycle", "instance_type", "region", "availability_zone",
   "product_description", "operating_system", "memory", "vcpu"]

/-- The label names of the `ec2_memory` and `ec2_vcpu` families (exporter.go:98, 104). -/
def unitLabels : List String :=
  ["instance_lifecycle", "instance_type", "region", "availability_zone"]

/-- The map that `initGauges` builds (exporter.go:86-105). -/
def initMetrics : MetricSet := fun name =>
  if name = "ec2" then some (NewGaugeVec ec2Labels)
  else if name = "ec2_memory" then some (NewGaugeVec unitLabels)
  else if name = "ec2_vcpu" then some (NewGaugeVec unitLabels)
  else none

/-- The method `initGauges` (exporter.go:86-105). -/
def initGauges (e : Exporter) : Exporter :=
  { e with pricingMetrics := initMetrics }

/-- The labels that `setPricingMetrics` builds for an observation
(exporter.go:211-230); `[]` is the nil map. -/
def labelsOf (scr : scrapeResult) : Labels :=
  if scr.Name = "ec2" then
    [("instance_lifecycle", scr.InstanceLifecycle), ("instance_type", scr.InstanceType),
     ("region", scr.Region), ("availability_zone", scr.AvailabilityZone),
     ("product_description", scr.ProductDescription),
     ("operating_system", scr.OperatingSystem), ("memory", scr.Memory), ("vcpu", scr.VCpu)]
  else if scr.Name = "ec2_memory" ∨ scr.Name = "ec2_vcpu" then
    [("instance_lifecycle", scr.InstanceLifecycle), ("instance_type", scr.InstanceType),
     ("region", scr.Region), ("availability_zone", scr.AvailabilityZone)]
  else []

/-- One iteration of the loop of `setPricingMetrics` (exporter.go:193-231). -/
def setPricingMetric (m : MetricSet) (scr : scrapeResult) : Except Abort MetricSet :=
  let name := scr.Name
  let m : MetricSet :=
    match m name with
    | some _ => m
    | none =>
      if name = "ec2" then fun k => if k = name then some (NewGaugeVec ec2Labels) else m k
      else if name = "ec2_memory" ∨ name = "ec2_vcpu" then
        fun k => if k = name then some (NewGaugeVec unitLabels) else m k
      else m
  match m name with
  | none => .error .panic
  | some g =>
    match g.WithSet (labelsOf scr) scr.Value with
    | .error a => .error a
    | .ok g1 => .ok (fun k => if k = name then some g1 else m k)

/-- The method `setPricingMetrics` (exporter.go:191-233) over the values received
from the channel. -/
def setPricingMetrics (m : MetricSet) : List scrapeResult → Except Abort MetricSet
  | [] => .ok m
  | scr :: rest =>
    match setPricingMetric m scr with
    | .error a => .error a
    | .ok m1 => setPricingMetrics m1 rest

/-- The method `inRegions` (exporter.go:235-242). -/
def inRegions (e : Exporter) (r : String) : Bool :=
  e.regions.any (fun region => decide (r = region))

/-- The function `contains` (exporter.go:244-251). -/
def contains (elems : List String) (v : String) : Bool :=
  elems.any (fun s => decide (v = s))

/-- Modelled from the spec: the helper `isMatchAny` that spot.go:31 and
savingplan.go:69 call is not among the sources; by the spec "an observation is
kept iff the instance type matches at least one pattern". -/
def isMatchAny (regexes : List Regexp) (s : String) : Bool :=
  regexes.any (fun re => re s)

/-! ## The provider, as the fetchers see it -/

/-- The pair `(output, err)` that `NextPage` or an API call returns: `out` is
`none` for a nil pointer, `err` is `true` for a non-nil error. -/
structure PageResult (α : Type) where
  out : Option α
  err : Bool

/-- The fields of `ec2types.SpotPrice` that spot.go reads (pointer fields taken
non-nil). -/
structure SpotPrice where
  InstanceType : String
  SpotPrice : String
  AvailabilityZone : String
  ProductDescription : String

/-- The price dimension of a term: the map `PricePerUnit`. -/
structure PriceDimension where
  PricePerUnit : String → String

/-- The on-demand term of a product: the map `PriceDimensions`. -/
structure Term where
  PriceDimensions : String → PriceDimension

/-- The field `Product` of `Pricing`. -/
structure Product where
  Sku : String
  Attributes : String → String

/-- The field `Terms` of `Pricing`. -/
structure Terms where
  OnDemand : String → Term

/-- The struct `Pricing` that ondemand.go:80-84 decodes a price-list entry into
(its declaration is not among the sources; these are the fields ondemand.go:88-111
reads). -/
structure Pricing where
  Product : Product
  Terms : Terms

/-- The fields of `savingsplansTypes.SavingsPlanOfferingRate` that savingplan.go
reads: `Properties` after `convertPropertiesToStruct`, of which only
`InstanceType` and `ProductDescription` are used. -/
structure SavingsPlanOfferingRate where
  InstanceType : String
  ProductDescription : String
  Rate : String
  PaymentOption : String
  DurationSeconds : Int
  PlanType : String

/-- The output of `DescribeSavingsPlansOfferingRates`: `NextToken` is `none` for
a nil pointer. -/
structure RatesOutput where
  SearchResults : List SavingsPlanOfferingRate
  NextToken : Option String

/-- Everything outside the repository that one scrape cycle asks: the AWS calls,
`strconv.ParseFloat` (value and whether `err != nil`), `json.Unmarshal` into a
zero `Pricing`, and the clock readings. A paginator is the list of results its
successive `NextPage` calls return, `HasMorePages` being "the list is not
empty". -/
structure Provider where
  LoadDefaultConfig : String → Bool
  DescribeSpotPriceHistory : String → List (PageResult (List SpotPrice))
  DescribeAvailabilityZones : String → Option (List String)
  GetProducts : String → String → List (PageResult (List String))
  DescribeSavingsPlansOfferingRates : String → String → PageResult RatesOutput
  ParseFloat : String → F64 × Bool
  Unmarshal : String → Pricing
  scrapeSeconds : F64
  nowAfterScrape : Int

/-- What the fetchers change: the field `e.errorCount` and the values sent on
the channel `scrapes`, oldest first. -/
structure Run where
  errorCount : Nat
  scrapes : List scrapeResult

/-- The call `atomic.AddUint64(&e.errorCount, 1)`. -/
def Run.addError (st : Run) : Run :=
  { st with errorCount := (st.errorCount + 1) % 2 ^ 64 }

/-- The sends `scrapes <- r` for each `r` of `rs`, in order. -/
def Run.send (st : Run) (rs : List scrapeResult) : Run :=
  { st with scrapes := st.scrapes ++ rs }

/-- The methods `getInstanceMemory` (instances.go:49-51). -/
def getInstanceMemory (instances : Catalog) (instanceName : String) : String :=
  toString (instances.get instanceName).Memory

/-- The method `getInstanceVCpu` (instances.go:53-55). -/
def getInstanceVCpu (instances : Catalog) (instanceName : String) : String :=
  toString (instances.get instanceName).VCpu

/-! ## spot.go -/

/-- The three values that spot.go:43-71 sends for one record, given the parsed
`value`. -/
def spotResults (e : Exporter) (region : String) (price : SpotPrice) (value : F64) :
    List scrapeResult :=
  let costs := getNormalizedCost e.instances value price.InstanceType
  [ { Name := "ec2", Value := value, Region := region,
      AvailabilityZone := price.AvailabilityZone, InstanceType := price.InstanceType,
      InstanceLifecycle := "spot", ProductDescription := price.ProductDescription,
      Memory := getInstanceMemory e.instances price.InstanceType,
      VCpu := getInstanceVCpu e.instances price.InstanceType },
    { Name := "ec2_memory", Value := costs.2, Region := region,
      AvailabilityZone := price.AvailabilityZone, InstanceType := price.InstanceType,
      InstanceLifecycle := "spot" },
    { Name := "ec2_vcpu", Value := costs.1, Region := region,
      AvailabilityZone := price.AvailabilityZone, InstanceType := price.InstanceType,
      InstanceLifecycle := "spot" } ]

/-- The body of the record loop of `getSpotPricing` (spot.go:30-72). -/
def spotRecord (e : Exporter) (p : Provider) (region : String) (st : Run) (price : SpotPrice) :
    Run :=
  if !isMatchAny e.instanceRegexes price.InstanceType then st
  else
    let parsed := p.ParseFloat price.SpotPrice
    let st := if parsed.2 then st.addError else st
    st.send (spotResults e region price parsed.1)

/-- The page loop of `getSpotPricing` (spot.go:23-73). -/
def spotPages (e : Exporter) (p : Provider) (region : String) :
    List (PageResult (List SpotPrice)) → Run → Except Abort Run
  | [], st => .ok st
  | pg :: rest, st =>
    if pg.err then .ok st.addError
    else
      match pg.out with
      | none => .error .panic
      | some history => spotPages e p region rest (history.foldl (spotRecord e p region) st)

/-- The method `getSpotPricing` (spot.go:14-74). -/
def getSpotPricing (e : Exporter) (p : Provider) (region : String) (st : Run) :
    Except Abort Run :=
  spotPages e p region (p.DescribeSpotPriceHistory region) st

/-! ## ondemand.go -/

/-- The constant `TermOnDemand` (ondemand.go:19). -/
def TermOnDemand : String := "JRTCKXETXF"

/-- The constant `TermPerHour` (ondemand.go:20). -/
def TermPerHour : String := "6YS6EN2CT7"

/-- The method `getAZs` (ondemand.go:134-155): `log.Fatalf` when the lookup fails. -/
def getAZs (p : Provider) (region : String) : Except Abort (List String) :=
  match p.DescribeAvailabilityZones region with
  | none => .error .fatal
  | some azs => .ok azs

/-- The page loop of one operating system (ondemand.go:65-74): an error is
counted and the output is dereferenced all the same. -/
def onDemandPages : List (PageResult (List String)) → Nat × List (List String) →
    Except Abort (Nat × List (List String))
  | [], acc => .ok acc
  | pg :: rest, (errorCount, pricelists) =>
    let errorCount := if pg.err then (errorCount + 1) % 2 ^ 64 else errorCount
    match pg.out with
    | none => .error .panic
    | some pricelist => onDemandPages rest (errorCount, pricelists ++ [pricelist])

/-- The loop over `e.operatingSystems` (ondemand.go:30-75). -/
def onDemandPricelists (p : Provider) (region : String) : List String →
    Nat × List (List String) → Except Abort (Nat × List (List String))
  | [], acc => .ok acc
  | os :: rest, acc =>
    match onDemandPages (p.GetProducts region os) acc with
    | .error a => .error a
    | .ok acc1 => onDemandPricelists p region rest acc1

/-- The price string that ondemand.go:92 parses. -/
def onDemandPriceString (out : Pricing) : String :=
  let sku := out.Product.Sku
  let skuOnDemand := sku ++ "." ++ TermOnDemand
  let skuOnDemandPerHour := skuOnDemand ++ "." ++ TermPerHour
  (((out.Terms.OnDemand skuOnDemand).PriceDimensions skuOnDemandPerHour).PricePerUnit "USD")

/-- The three values that ondemand.go:101-128 sends for one record and one zone. -/
def onDemandResults (e : Exporter) (region : String) (out : Pricing) (value : F64)
    (az : String) : List scrapeResult :=
  let costs := getNormalizedCost e.instances value (out.Product.Attributes "instanceType")
  [ { Name := "ec2", Value := value, Region := region, AvailabilityZone := az,
      InstanceType := out.Product.Attributes "instanceType",
      InstanceLifecycle := "ondemand",
      OperatingSystem := out.Product.Attributes "operatingSystem",
      ProductDescription := out.Product.Attributes "productDescription",
      Memory := getInstanceMemory e.instances (out.Product.Attributes "instanceType"),
      VCpu := getInstanceVCpu e.instances (out.Product.Attributes "instanceType") },
    { Name := "ec2_memory", Value := costs.2, Region := region, AvailabilityZone := az,
      InstanceType := out.Product.Attributes "instanceType",
      InstanceLifecycle := "ondemand" },
    { Name := "ec2_vcpu", Value := costs.1, Region := region, AvailabilityZone := az,
      InstanceType := out.Product.Attributes "instanceType",
      InstanceLifecycle := "ondemand" } ]

/-- The body of the record loop of `getOnDemandPricing` (ondemand.go:87-130). -/
def onDemandRecord (e : Exporter) (p : Provider) (region : String) (azs : List String)
    (st : Run) (out : Pricing) : Run :=
  let parsed := p.ParseFloat (onDemandPriceString out)
  let st := if parsed.2 then st.addError else st
  azs.foldl (fun st az => st.send (onDemandResults e region out parsed.1 az)) st

/-- The decoding loop of ondemand.go:77-85. -/
def onDemandOuts (p : Provider) (pricelists : List (List String)) : List Pricing :=
  pricelists.flatMap (fun pricelist => pricelist.map p.Unmarshal)

/-- The method `getOnDemandPricing` (ondemand.go:23-132). -/
def getOnDemandPricing (e : Exporter) (p : Provider) (region : String) (st : Run) :
    Except Abort Run :=
  match getAZs p region with
  | .error a => .error a
  | .ok azs =>
    match onDemandPricelists p region e.operatingSystems (st.errorCount, []) with
    | .error a => .error a
    | .ok (errorCount, pricelists) =>
      .ok ((onDemandOuts p pricelists).foldl (onDemandRecord e p region azs)
        { st with errorCount := errorCount })

/-! ## savingplan.go -/

/-- The function `SecondsToYears` (savingplan.go:150-161): panics unless the
result is 1 or 3. -/
def SecondsToYears (seconds : Int) : Except Abort Int :=
  let years := Int.tdiv seconds 31536000
  if years ≠ 1 ∧ years ≠ 3 then .error .panic else .ok years

/-- The three values that savingplan.go:81-114 sends for one record. -/
def savingPlanResults (e : Exporter) (region : String) (plan : SavingsPlanOfferingRate)
    (value : F64) (years : Int) : List scrapeResult :=
  let costs := getNormalizedCost e.instances value plan.InstanceType
  [ { Name := "ec2", Value := value, Region := region, InstanceType := plan.InstanceType,
      InstanceLifecycle := "ondemand", ProductDescription := plan.ProductDescription,
      SavingPlanOption := plan.PaymentOption, SavingPlanDuration := years,
      SavingPlanType := plan.PlanType,
      Memory := getInstanceMemory e.instances plan.InstanceType,
      VCpu := getInstanceVCpu e.instances plan.InstanceType },
    { Name := "ec2_memory", Value := costs.2, Region := region,
      InstanceType := plan.InstanceType, InstanceLifecycle := "ondemand",
      SavingPlanOption := plan.PaymentOption, SavingPlanDuration := years,
      SavingPlanType := plan.PlanType },
    { Name := "ec2_vcpu", Value := costs.1, Region := region,
      InstanceType := plan.InstanceType, InstanceLifecycle := "ondemand",
      SavingPlanOption := plan.PaymentOption, SavingPlanDuration := years,
      SavingPlanType := plan.PlanType } ]

/-- The body of the record loop of `getSavingPlanPricing` (savingplan.go:65-115);
`SecondsToYears` runs while the first value is built, before anything is sent. -/
def savingPlanRecord (e : Exporter) (p : Provider) (region : String) (st : Run)
    (plan : SavingsPlanOfferingRate) : Except Abort Run :=
  if !isMatchAny e.instanceRegexes plan.InstanceType then .ok st
  else
    let parsed := p.ParseFloat plan.Rate
    let st := if parsed.2 then st.addError else st
    match SecondsToYears plan.DurationSeconds with
    | .error a => .error a
    | .ok years => .ok (st.send (savingPlanResults e region plan parsed.1 years))

/-- The record loop of `getSavingPlanPricing` (savingplan.go:65-115). -/
def savingPlanRecords (e : Exporter) (p : Provider) (region : String) :
    List SavingsPlanOfferingRate → Run → Except Abort Run
  | [], st => .ok st
  | plan :: rest, st =>
    match savingPlanRecord e p region st plan with
    | .error a => .error a
    | .ok st1 => savingPlanRecords e p region rest st1

/-- The paging loop `for { ... }` of savingplan.go:48-63, at most `fuel` requests:
an error is counted and the response is dereferenced all the same. -/
def savingPlanPages (p : Provider) (region : String) : Nat → String →
    Nat × List SavingsPlanOfferingRate → Except Abort (Nat × List SavingsPlanOfferingRate)
  | 0, _, _ => .error .fuel
  | fuel + 1, token, (errorCount, savingPlanList) =>
    let resp := p.DescribeSavingsPlansOfferingRates region token
    let errorCount := if resp.err then (errorCount + 1) % 2 ^ 64 else errorCount
    match resp.out with
    | none => .error .panic
    | some out =>
      match out.NextToken with
      | none => .error .panic
      | some next =>
        if next = "" then .ok (errorCount, savingPlanList ++ out.SearchResults)
        else savingPlanPages p region fuel next (errorCount, savingPlanList ++ out.SearchResults)

/-- The method `getSavingPlanPricing` (savingplan.go:21-115); the first request
carries no token. -/
def getSavingPlanPricing (e : Exporter) (p : Provider) (region : String) (fuel : Nat)
    (st : Run) : Except Abort Run :=
  match savingPlanPages p region fuel "" (st.errorCount, []) with
  | .error a => .error a
  | .ok (errorCount, savingPlanList) =>
    savingPlanRecords e p region savingPlanList { st with errorCount := errorCount }

/-! ## The scrape cycle (exporter.go) -/

/-- The body of the goroutine that `scrape` starts per region (exporter.go:163-183);
`errorCount` is the local counter of `scrape`. -/
def scrapeRegion (e : Exporter) (p : Provider) (region : String) (errorCount : Nat)
    (st : Run) : Except Abort (Nat × Run) :=
  let errorCount := if p.LoadDefaultConfig region then (errorCount + 1) % 2 ^ 64 else errorCount
  match (if contains e.lifecycle "spot" then getSpotPricing e p region st else .ok st) with
  | .error a => .error a
  | .ok st1 =>
    match (if contains e.lifecycle "ondemand" then getOnDemandPricing e p region st1
           else .ok st1) with
    | .error a => .error a
    | .ok st2 => .ok (errorCount, st2)

/-- The loop over `e.regions` of `scrape` (exporter.go:155-185); `wg.Wait()` inside
the loop makes the regions run one after the other. -/
def scrapeRegions (e : Exporter) (p : Provider) : List String → Nat → Run →
    Except Abort (Nat × Run)
  | [], errorCount, st => .ok (errorCount, st)
  | region :: rest, errorCount, st =>
    if !inRegions e region then scrapeRegions e p rest errorCount st
    else
      match scrapeRegion e p region errorCount st with
      | .error a => .error a
      | .ok (errorCount1, st1) => scrapeRegions e p rest errorCount1 st1

/-- The method `scrape` (exporter.go:144-189): the exporter afterwards and the
values it sent on the channel. -/
def scrape (e : Exporter) (p : Provider) : Except Abort (Exporter × List scrapeResult) :=
  match scrapeRegions e p e.regions 0 ⟨e.errorCount, []⟩ with
  | .error a => .error a
  | .ok (errorCount, st) =>
    .ok ({ e with totalScrapes := e.totalScrapes + 1,
                  errorCount := st.errorCount,
                  scrapeErrors := F64.ofInt errorCount,
                  duration := p.scrapeSeconds }, st.scrapes)

/-- The `int64` wrap-around of a `time.Duration`. -/
def wrapInt64 (i : Int) : Int := (i + 2 ^ 63) % 2 ^ 64 - 2 ^ 63

/-- The method `Collect` (exporter.go:118-142) at clock reading `now`
(nanoseconds): the exporter it leaves; what it writes to `ch` is read off that
exporter. `scrape` touches no field that `setPricingMetrics` touches, so the two
goroutines are run one after the other. -/
def Collect (e : Exporter) (p : Provider) (now : Int) : Except Abort Exporter :=
  if e.nextScrape < now then
    match scrape (initGauges e) p with
    | .error a => .error a
    | .ok (e1, scrapes) =>
      match setPricingMetrics e1.pricingMetrics scrapes with
      | .error a => .error a
      | .ok m =>
        .ok { e1 with pricingMetrics := m,
                      nextScrape := p.nowAfterScrape + wrapInt64 (1000000000 * e1.cache) }
  else .ok e

/-! ## Reading a metric set -/

/-- The tuple of label values under which `setPricingMetrics` files an
observation: its labels in the order of the family's variable labels. -/
def seriesKey (scr : scrapeResult) : List String :=
  (labelValues (labelsOf scr) (if scr.Name = "ec2" then ec2Labels else unitLabels)).getD []

/-- Whether the family `name` of a metric set holds a gauge for the label tuple `lvs`. -/
def hasSeries (m : MetricSet) (name : String) (lvs : List String) : Bool :=
  match m name with
  | some g => (g.metrics lvs).isSome
  | none => false

/-- The three family names that the fetchers use. -/
def knownName (name : String) : Prop :=
  name = "ec2" ∨ name = "ec2_memory" ∨ name = "ec2_vcpu"

/-- A metric set that holds the three families with the label names of `initGauges`. -/
def WellFormed (m : MetricSet) : Prop :=
  (∃ g, m "ec2" = some g ∧ g.labelNames = ec2Labels)
    ∧ (∃ g, m "ec2_memory" = some g ∧ g.labelNames = unitLabels)
    ∧ (∃ g, m "ec2_vcpu" = some g ∧ g.labelNames = unitLabels)

/-- Every value of the list carries one of the three family names. -/
def AllKnown (l : List scrapeResult) : Prop :=
  ∀ o ∈ l, knownName o.Name

/-! ## main.go: the validators -/

/-- The function `validateProductDesc` (main.go:117-125): `log.Fatalf` at the
first description that is none of the six. -/
def validateProductDesc : List String → Except Abort Unit
  | [] => .ok ()
  | desc :: rest =>
    if desc ≠ "Linux/UNIX" ∧ desc ≠ "Linux/UNIX (Amazon VPC)" ∧
        desc ≠ "SUSE Linux" ∧ desc ≠ "SUSE Linux (Amazon VPC)" ∧
        desc ≠ "Windows" ∧ desc ≠ "Windows (Amazon VPC)" then .error .fatal
    else validateProductDesc rest

/-- The function `validateOperatingSystems` (main.go:127-136). -/
def validateOperatingSystems : List String → Except Abort Unit
  | [] => .ok ()
  | os :: rest =>
    if os ≠ "Linux" ∧ os ≠ "RHEL" ∧ os ≠ "SUSE" ∧ os ≠ "Windows" then .error .fatal
    else validateOperatingSystems rest

/-- The function `validateSavingPlanTypes` (main.go:138-147). -/
def validateSavingPlanTypes : List String → Except Abort Unit
  | [] => .ok ()
  | plan :: rest =>
    if plan ≠ "" ∧ plan ≠ "Compute" ∧ plan ≠ "EC2Instance" ∧ plan ≠ "SageMaker" then
      .error .fatal
    else validateSavingPlanTypes rest

/-! ## Comparing metric sets -/

/-- The gauge value that the family `name` of a metric set holds under the label
tuple `lvs`, if any. -/
def seriesValue (m : MetricSet) (name : String) (lvs : List String) : Option F64 :=
  match m name with
  | some g => g.metrics lvs
  | none => none

/-- The metric set after `vec.With(labels).Set(scr.Value)` on the family of an
observation whose family the set holds (exporter.go:231). -/
def applyObs (m : MetricSet) (scr : scrapeResult) : MetricSet := fun name =>
  if name = scr.Name then
    match m name with
    | some g =>
      some { g with metrics := fun k => if k = seriesKey scr then some scr.Value
                                        else g.metrics k }
    | none => none
  else m name

/-- Observations of the list that share family and label tuple share the value. -/
def SameKeySameValue (l : List scrapeResult) : Prop :=
  ∀ x ∈ l, ∀ y ∈ l, x.Name = y.Name → seriesKey x = seriesKey y → x.Value = y.Value

/-- A metric set that holds the three families of `initGauges` and no other. -/
def ExactFamilies (m : MetricSet) : Prop :=
  WellFormed m ∧ ∀ name, ¬ knownName name → m name = none

/-! ## Sample inputs -/

/-- A provider stub: every call succeeds and returns nothing; `ParseFloat`
accepts `"0.10"` and `"0.25"` only (a syntax error returns 0 and an error). -/
def stubProvider : Provider where
  LoadDefaultConfig := fun _ => false
  DescribeSpotPriceHistory := fun _ => []
  DescribeAvailabilityZones := fun _ => some []
  GetProducts := fun _ _ => []
  DescribeSavingsPlansOfferingRates := fun _ _ => ⟨some ⟨[], some ""⟩, false⟩
  ParseFloat := fun s =>
    if s = "0.10" then (F64.fin (1 / 10), false)
    else if s = "0.25" then (F64.fin (1 / 4), false)
    else (F64.fin 0, true)
  Unmarshal := fun _ => ⟨⟨"", fun _ => ""⟩, ⟨fun _ => ⟨fun _ => ⟨fun _ => ""⟩⟩⟩⟩
  scrapeSeconds := F64.fin 0
  nowAfterScrape := 0

/-- An exporter as `NewExporter` leaves it at time 100, for one region and the
spot lifecycle, with a catalog of one instance type and the pattern `.*`. -/
def sampleExporter : Exporter where
  productDescriptions := ["Linux/UNIX"]
  operatingSystems := ["Linux"]
  regions := ["eu-west-1"]
  lifecycle := ["spot"]
  instanceRegexes := [fun _ => true]
  savingPlanTypes := []
  duration := F64.fin 0
  scrapeErrors := F64.fin 0
  totalScrapes := 0
  pricingMetrics := initMetrics
  instances := singleCatalog "t3.medium" ⟨4096, 2⟩
  cache := 60
  nextScrape := 100
  errorCount := 0

/-- The stub provider with one spot price page that holds `history`. -/
def spotProvider (history : List SpotPrice) : Provider :=
  { stubProvider with DescribeSpotPriceHistory := fun _ => [⟨some history, false⟩] }

/-- The name and value of each value sent, oldest first. -/
def namesAndValues (st : Run) : List (String × F64) :=
  st.scrapes.map (fun r => (r.Name, r.Value))

/-- The stub provider whose first spot price page fails. -/
def failingSpotProvider : Provider :=
  { stubProvider with DescribeSpotPriceHistory := fun _ => [⟨none, true⟩] }

/-- The stub provider with, per region and operating system, one price-list page
of one entry, which decodes to an on-demand product of type `c5.large` priced
`"0.10"`; the availability-zone lookup fails for `eu-west-1` and returns one zone
for any other region. -/
def onDemandProvider : Provider :=
  { stubProvider with
    DescribeAvailabilityZones := fun region =>
      if region = "eu-west-1" then none else some [region ++ "a"]
    GetProducts := fun _ _ => [⟨some ["entry"], false⟩]
    Unmarshal := fun _ =>
      ⟨⟨"SKU1", fun k => if k = "instanceType" then "c5.large"
                          else if k = "operatingSystem" then "Linux" else ""⟩,
       ⟨fun _ => ⟨fun _ => ⟨fun _ => "0.10"⟩⟩⟩⟩ }

/-- The sample exporter for two regions and the on-demand lifecycle, with the
single instance-type pattern `^m5\.large$`. -/
def onDemandExporter : Exporter :=
  { sampleExporter with
    regions := ["eu-west-1", "us-east-1"]
    lifecycle := ["ondemand"]
    instanceRegexes := [fun s => s == "m5.large"] }

/-- The sample exporter with a previous metric set in which every family holds a
gauge under every label tuple. -/
def staleExporter : Exporter :=
  { sampleExporter with pricingMetrics := fun _ => some ⟨unitLabels, fun _ => some (F64.fin 1)⟩ }

/-- An `ec2_memory` observation of the on-demand fetcher in `us-east-1a`, with
the given instance type and value. -/
def memoryObs (instanceType : String) (value : F64) : scrapeResult :=
  { Name := "ec2_memory", Value := value, Region := "us-east-1",
    AvailabilityZone := "us-east-1a", InstanceType := instanceType,
    InstanceLifecycle := "ondemand" }

/-- The stub provider with three availability zones per region and, per region
and operating system, one price-list page of one entry, which decodes to the
product `SKU1` of type `t3.medium` whose on-demand term `SKU1.JRTCKXETXF` has the
price dimension `SKU1.JRTCKXETXF.6YS6EN2CT7` at `"0.10"` USD; every other key of
the three maps is absent. -/
def zonedOnDemandProvider : Provider :=
  { stubProvider with
    DescribeAvailabilityZones := fun region =>
      some [region ++ "a", region ++ "b", region ++ "c"]
    GetProducts := fun _ _ => [⟨some ["entry"], false⟩]
    Unmarshal := fun _ =>
      ⟨⟨"SKU1", fun k => if k = "instanceType" then "t3.medium"
                          else if k = "operatingSystem" then "Linux" else ""⟩,
       ⟨fun term =>
          if term = "SKU1.JRTCKXETXF" then
            ⟨fun dimension =>
              if dimension = "SKU1.JRTCKXETXF.6YS6EN2CT7" then
                ⟨fun currency => if currency = "USD" then "0.10" else ""⟩
              else ⟨fun _ => ""⟩⟩
          else ⟨fun _ => ⟨fun _ => ""⟩⟩⟩⟩ }

/-! ## Theorems -/

/-! ### What the record loops send -/

theorem foldl_send (f : String → List scrapeResult) (azs : List String) (st : Run) :
    azs.foldl (fun st az => st.send (f az)) st
      = ⟨st.errorCount, st.scrapes ++ azs.flatMap f⟩ := by
  induction azs generalizing st with
  | nil => simp
  | cons az rest ih =>
    rw [List.foldl_cons, ih]
    simp [Run.send, List.append_assoc]

theorem spotRecord_of_match (e : Exporter) (p : Provider) (region : String) (st : Run)
    (price : SpotPrice) (h : isMatchAny e.instanceRegexes price.InstanceType = true) :
    spotRecord e p region st price
      = ⟨if (p.ParseFloat price.SpotPrice).2 then (st.errorCount + 1) % 2 ^ 64
          else st.errorCount,
         st.scrapes ++ spotResults e region price (p.ParseFloat price.SpotPrice).1⟩ := by
  unfold spotRecord
  by_cases hp : (p.ParseFloat price.SpotPrice).2 = true <;>
    simp [h, hp, Run.send, Run.addError]

theorem spotRecord_of_not_match (e : Exporter) (p : Provider) (region : String) (st : Run)
    (price : SpotPrice) (h : isMatchAny e.instanceRegexes price.InstanceType = false) :
    spotRecord e p region st price = st := by
  simp [spotRecord, h]

theorem onDemandRecord_eq (e : Exporter) (p : Provider) (region : String)
    (azs : List String) (st : Run) (out : Pricing) :
    onDemandRecord e p region azs st out
      = ⟨if (p.ParseFloat (onDemandPriceString out)).2 then (st.errorCount + 1) % 2 ^ 64
          else st.errorCount,
         st.scrapes ++ azs.flatMap
           (onDemandResults e region out (p.ParseFloat (onDemandPriceString out)).1)⟩ := by
  unfold onDemandRecord
  by_cases hp : (p.ParseFloat (onDemandPriceString out)).2 = true <;>
    simp [hp, foldl_send, Run.addError]

theorem onDemandRecords_scrapes (e : Exporter) (p : Provider) (region : String)
    (azs : List String) (outs : List Pricing) (st : Run) :
    (outs.foldl (onDemandRecord e p region azs) st).scrapes
      = st.scrapes ++ outs.flatMap (fun out => azs.flatMap
          (onDemandResults e region out (p.ParseFloat (onDemandPriceString out)).1)) := by
  induction outs generalizing st with
  | nil => simp
  | cons out rest ih =>
    rw [List.foldl_cons, ih, onDemandRecord_eq]
    simp [List.append_assoc]

theorem savingPlanRecord_of_match (e : Exporter) (p : Provider) (region : String) (st : Run)
    (plan : SavingsPlanOfferingRate) (years : Int)
    (h : isMatchAny e.instanceRegexes plan.InstanceType = true)
    (hy : SecondsToYears plan.DurationSeconds = .ok years) :
    savingPlanRecord e p region st plan
      = .ok ⟨if (p.ParseFloat plan.Rate).2 then (st.errorCount + 1) % 2 ^ 64
              else st.errorCount,
             st.scrapes ++ savingPlanResults e region plan (p.ParseFloat plan.Rate).1 years⟩ := by
  unfold savingPlanRecord
  by_cases hp : (p.ParseFloat plan.Rate).2 = true <;>
    simp [h, hp, hy, Run.send, Run.addError]

theorem countP_flatMap_const {α β : Type} (q : β → Bool) (f : α → List β) (c : Nat)
    (l : List α) (h : ∀ a, (f a).countP q = c) :
    (l.flatMap f).countP q = l.length * c := by
  induction l with
  | nil => simp
  | cons a rest ih =>
    rw [List.flatMap_cons, List.countP_append, ih, h, List.length_cons]
    ring

/-! ### Building the metric set -/

theorem initMetrics_wellFormed : WellFormed initMetrics := by
  refine ⟨⟨NewGaugeVec ec2Labels, ?_, rfl⟩, ⟨NewGaugeVec unitLabels, ?_, rfl⟩,
    ⟨NewGaugeVec unitLabels, ?_, rfl⟩⟩ <;> simp [initMetrics]

theorem wellFormed_family (m : MetricSet) (hm : WellFormed m) (name : String)
    (hn : knownName name) :
    ∃ g, m name = some g
      ∧ g.labelNames = (if name = "ec2" then ec2Labels else unitLabels) := by
  obtain ⟨⟨g1, h1, l1⟩, ⟨g2, h2, l2⟩, ⟨g3, h3, l3⟩⟩ := hm
  rcases hn with h | h | h
  · subst h; exact ⟨g1, h1, by simpa using l1⟩
  · subst h; exact ⟨g2, h2, by simpa using l2⟩
  · subst h; exact ⟨g3, h3, by simpa using l3⟩

theorem labelValues_labelsOf (scr : scrapeResult) (hn : knownName scr.Name) :
    (labelsOf scr).length = (if scr.Name = "ec2" then ec2Labels else unitLabels).length
      ∧ labelValues (labelsOf scr) (if scr.Name = "ec2" then ec2Labels else unitLabels)
          = some (seriesKey scr) := by
  rcases hn with h | h | h <;>
    simp [seriesKey, labelsOf, h, ec2Labels, unitLabels, labelValues, List.lookup]

theorem setPricingMetric_eq (m : MetricSet) (scr : scrapeResult) (g : GaugeVec)
    (hg : m scr.Name = some g)
    (hl : g.labelNames = (if scr.Name = "ec2" then ec2Labels else unitLabels))
    (hn : knownName scr.Name) :
    setPricingMetric m scr
      = .ok (fun k => if k = scr.Name then
          some { g with metrics := fun k => if k = seriesKey scr then some scr.Value
                                            else g.metrics k }
          else m k) := by
  obtain ⟨hlen, hval⟩ := labelValues_labelsOf scr hn
  rw [← hl] at hlen hval
  simp [setPricingMetric, hg, GaugeVec.WithSet, hlen, hval]

theorem setPricingMetric_ok (m : MetricSet) (scr : scrapeResult) (hm : WellFormed m)
    (hn : knownName scr.Name) :
    ∃ m1, setPricingMetric m scr = .ok m1 ∧ WellFormed m1
      ∧ ∀ name lvs, hasSeries m1 name lvs = true ↔
          (hasSeries m name lvs = true ∨ (name = scr.Name ∧ lvs = seriesKey scr)) := by
  obtain ⟨g, hg, hl⟩ := wellFormed_family m hm scr.Name hn
  refine ⟨_, setPricingMetric_eq m scr g hg hl hn, ?_, ?_⟩
  · obtain ⟨⟨g1, h1, l1⟩, ⟨g2, h2, l2⟩, ⟨g3, h3, l3⟩⟩ := hm
    refine ⟨?_, ?_, ?_⟩
    · by_cases hk : "ec2" = scr.Name
      · refine ⟨_, if_pos hk, ?_⟩
        rw [← hk] at hg
        rw [hg] at h1
        cases h1
        exact l1
      · exact ⟨g1, (if_neg hk).trans h1, l1⟩
    · by_cases hk : "ec2_memory" = scr.Name
      · refine ⟨_, if_pos hk, ?_⟩
        rw [← hk] at hg
        rw [hg] at h2
        cases h2
        exact l2
      · exact ⟨g2, (if_neg hk).trans h2, l2⟩
    · by_cases hk : "ec2_vcpu" = scr.Name
      · refine ⟨_, if_pos hk, ?_⟩
        rw [← hk] at hg
        rw [hg] at h3
        cases h3
        exact l3
      · exact ⟨g3, (if_neg hk).trans h3, l3⟩
  · intro name lvs
    by_cases hk : name = scr.Name
    · subst hk
      by_cases hv : lvs = seriesKey scr
      · simp [hasSeries, hv]
      · simp [hasSeries, hv, hg]
    · simp [hasSeries, hk]

theorem setPricingMetrics_ok (obs : List scrapeResult) (m : MetricSet) (hm : WellFormed m)
    (hn : ∀ o ∈ obs, knownName o.Name) :
    ∃ m1, setPricingMetrics m obs = .ok m1 ∧ WellFormed m1
      ∧ ∀ name lvs, hasSeries m1 name lvs = true ↔
          (hasSeries m name lvs = true ∨ ∃ o ∈ obs, o.Name = name ∧ seriesKey o = lvs) := by
  induction obs generalizing m with
  | nil => exact ⟨m, rfl, hm, by simp⟩
  | cons scr rest ih =>
    obtain ⟨m1, h1, w1, s1⟩ :=
      setPricingMetric_ok m scr hm (hn scr (List.mem_cons_self scr rest))
    obtain ⟨m2, h2, w2, s2⟩ := ih m1 w1 (fun o ho => hn o (List.mem_cons_of_mem scr ho))
    refine ⟨m2, ?_, w2, ?_⟩
    · simp [setPricingMetrics, h1, h2]
    · intro name lvs
      rw [s2, s1]
      constructor
      · rintro ((h | ⟨hname, hlvs⟩) | ⟨o, ho, h⟩)
        · exact Or.inl h
        · exact Or.inr ⟨scr, List.mem_cons_self scr rest, hname.symm, hlvs.symm⟩
        · exact Or.inr ⟨o, List.mem_cons_of_mem scr ho, h⟩
      · rintro (h | ⟨o, ho, hname, hlvs⟩)
        · exact Or.inl (Or.inl h)
        · rcases List.mem_cons.mp ho with rfl | ho
          · exact Or.inl (Or.inr ⟨hname.symm, hlvs.symm⟩)
          · exact Or.inr ⟨o, ho, hname, hlvs⟩

theorem hasSeries_initMetrics (name : String) (lvs : List String) :
    hasSeries initMetrics name lvs = false := by
  unfold hasSeries initMetrics
  split_ifs <;> simp [NewGaugeVec]

/-! ### The fetchers send the three family names only -/

theorem allKnown_append {l1 l2 : List scrapeResult} (h1 : AllKnown l1) (h2 : AllKnown l2) :
    AllKnown (l1 ++ l2) := by
  intro o ho
  rcases List.mem_append.mp ho with h | h
  · exact h1 o h
  · exact h2 o h

theorem spotResults_allKnown (e : Exporter) (region : String) (price : SpotPrice) (v : F64) :
    AllKnown (spotResults e region price v) := by
  intro o ho
  simp only [spotResults, List.mem_cons, List.mem_singleton, List.not_mem_nil, or_false] at ho
  rcases ho with h | h | h <;> subst h <;> simp [knownName]

theorem onDemandResults_allKnown (e : Exporter) (region : String) (out : Pricing) (v : F64)
    (az : String) : AllKnown (onDemandResults e region out v az) := by
  intro o ho
  simp only [onDemandResults, List.mem_cons, List.mem_singleton, List.not_mem_nil,
    or_false] at ho
  rcases ho with h | h | h <;> subst h <;> simp [knownName]

theorem spotRecord_allKnown (e : Exporter) (p : Provider) (region : String) (st : Run)
    (price : SpotPrice) (h : AllKnown st.scrapes) :
    AllKnown (spotRecord e p region st price).scrapes := by
  by_cases hm : isMatchAny e.instanceRegexes price.InstanceType = true
  · rw [spotRecord_of_match e p region st price hm]
    exact allKnown_append h (spotResults_allKnown e region price _)
  · rw [spotRecord_of_not_match e p region st price (by simpa using hm)]
    exact h

theorem spotRecords_allKnown (e : Exporter) (p : Provider) (region : String)
    (history : List SpotPrice) (st : Run) (h : AllKnown st.scrapes) :
    AllKnown (history.foldl (spotRecord e p region) st).scrapes := by
  induction history generalizing st with
  | nil => exact h
  | cons price rest ih =>
    rw [List.foldl_cons]
    exact ih _ (spotRecord_allKnown e p region st price h)

theorem spotPages_allKnown (e : Exporter) (p : Provider) (region : String)
    (pages : List (PageResult (List SpotPrice))) (st st1 : Run)
    (hr : spotPages e p region pages st = .ok st1) (h : AllKnown st.scrapes) :
    AllKnown st1.scrapes := by
  induction pages generalizing st with
  | nil =>
    simp only [spotPages, Except.ok.injEq] at hr
    subst hr
    exact h
  | cons pg rest ih =>
    unfold spotPages at hr
    by_cases he : pg.err = true
    · simp only [he, if_true, Except.ok.injEq] at hr
      subst hr
      exact h
    · cases ho : pg.out with
      | none => simp [he, ho] at hr
      | some history =>
        simp only [he, ho] at hr
        exact ih _ hr (spotRecords_allKnown e p region history st h)

theorem getOnDemandPricing_allKnown (e : Exporter) (p : Provider) (region : String)
    (st st1 : Run) (hr : getOnDemandPricing e p region st = .ok st1)
    (h : AllKnown st.scrapes) : AllKnown st1.scrapes := by
  unfold getOnDemandPricing at hr
  cases ha : getAZs p region with
  | error a => simp [ha] at hr
  | ok azs =>
    cases hp : onDemandPricelists p region e.operatingSystems (st.errorCount, []) with
    | error a => simp [ha, hp] at hr
    | ok acc =>
      obtain ⟨errorCount, pricelists⟩ := acc
      simp only [ha, hp, Except.ok.injEq] at hr
      subst hr
      rw [onDemandRecords_scrapes]
      refine allKnown_append h ?_
      intro o ho
      obtain ⟨out, -, ho⟩ := List.mem_flatMap.mp ho
      obtain ⟨az, -, ho⟩ := List.mem_flatMap.mp ho
      exact onDemandResults_allKnown e region out _ az o ho

theorem scrapeRegion_allKnown (e : Exporter) (p : Provider) (region : String)
    (errorCount errorCount1 : Nat) (st st1 : Run)
    (hr : scrapeRegion e p region errorCount st = .ok (errorCount1, st1))
    (h : AllKnown st.scrapes) : AllKnown st1.scrapes := by
  unfold scrapeRegion at hr
  cases hs : (if contains e.lifecycle "spot" then getSpotPricing e p region st
      else Except.ok st) with
  | error a => simp [hs] at hr
  | ok st2 =>
    have h2 : AllKnown st2.scrapes := by
      by_cases hc : contains e.lifecycle "spot" = true
      · rw [if_pos hc] at hs
        exact spotPages_allKnown e p region _ st st2 hs h
      · rw [if_neg hc] at hs
        cases hs
        exact h
    cases ho : (if contains e.lifecycle "ondemand" then getOnDemandPricing e p region st2
        else Except.ok st2) with
    | error a => simp [hs, ho] at hr
    | ok st3 =>
      simp only [hs, ho, Except.ok.injEq, Prod.mk.injEq] at hr
      obtain ⟨-, rfl⟩ := hr
      by_cases hc : contains e.lifecycle "ondemand" = true
      · rw [if_pos hc] at ho
        exact getOnDemandPricing_allKnown e p region st2 st3 ho h2
      · rw [if_neg hc] at ho
        cases ho
        exact h2

theorem scrapeRegions_allKnown (e : Exporter) (p : Provider) (regions : List String)
    (errorCount errorCount1 : Nat) (st st1 : Run)
    (hr : scrapeRegions e p regions errorCount st = .ok (errorCount1, st1))
    (h : AllKnown st.scrapes) : AllKnown st1.scrapes := by
  induction regions generalizing errorCount st with
  | nil =>
    simp only [scrapeRegions, Except.ok.injEq, Prod.mk.injEq] at hr
    obtain ⟨-, rfl⟩ := hr
    exact h
  | cons region rest ih =>
    unfold scrapeRegions at hr
    by_cases hi : inRegions e region = true
    · cases hs : scrapeRegion e p region errorCount st with
      | error a => simp [hi, hs] at hr
      | ok r =>
        obtain ⟨errorCount2, st2⟩ := r
        simp only [hi, hs, Bool.not_true, Bool.false_eq_true, if_false] at hr
        exact ih _ _ hr (scrapeRegion_allKnown e p region _ _ st st2 hs h)
    · simp only [hi, Bool.not_eq_true] at hr
      simp only [Bool.not_eq_true] at hi
      simp only [hi, Bool.not_false, if_true] at hr
      exact ih _ _ hr h

theorem scrape_allKnown (e : Exporter) (p : Provider) (e1 : Exporter)
    (obs : List scrapeResult) (hr : scrape e p = .ok (e1, obs)) : AllKnown obs := by
  unfold scrape at hr
  cases hs : scrapeRegions e p e.regions 0 ⟨e.errorCount, []⟩ with
  | error a => simp [hs] at hr
  | ok r =>
    obtain ⟨errorCount, st⟩ := r
    simp only [hs, Except.ok.injEq, Prod.mk.injEq] at hr
    obtain ⟨-, rfl⟩ := hr
    exact scrapeRegions_allKnown e p e.regions 0 errorCount _ st hs (by intro o ho; simp at ho)

theorem scrape_pricingMetrics (e : Exporter) (p : Provider) (e1 : Exporter)
    (obs : List scrapeResult) (hr : scrape e p = .ok (e1, obs)) :
    e1.pricingMetrics = e.pricingMetrics ∧ e1.cache = e.cache := by
  unfold scrape at hr
  cases hs : scrapeRegions e p e.regions 0 ⟨e.errorCount, []⟩ with
  | error a => simp [hs] at hr
  | ok r =>
    obtain ⟨errorCount, st⟩ := r
    simp only [hs, Except.ok.injEq, Prod.mk.injEq] at hr
    obtain ⟨rfl, -⟩ := hr
    exact ⟨rfl, rfl⟩

theorem Collect_of_scrape (e : Exporter) (p : Provider) (now : Int) (e2 : Exporter)
    (obs : List scrapeResult) (m1 : MetricSet) (hnow : e.nextScrape < now)
    (hs : scrape (initGauges e) p = .ok (e2, obs))
    (hset : setPricingMetrics e2.pricingMetrics obs = .ok m1) :
    Collect e p now
      = .ok { e2 with pricingMetrics := m1,
                      nextScrape := p.nowAfterScrape + wrapInt64 (1000000000 * e2.cache) } := by
  simp only [Collect, hnow, if_true, hs, hset]

/-- C1 (the code at the failing input): for the shape 512 MiB with 2 vCPU and the
price 0.10, `getNormalizedCost` returns `memoryCost = 0.10 / 14.4`: the 512 MiB
count as 0 GiB. With 0.5 GiB, as the claim has it, the result would be
`0.10 / 14.9`. For the shape 4096 MiB with 2 vCPU the result is `0.10 / 18.4`. -/
theorem getNormalizedCost_truncates_memory :
    (getNormalizedCost (singleCatalog "t3.nano" ⟨512, 2⟩) (F64.fin (1 / 10)) "t3.nano").2
        = F64.fin ((1 / 10) / (36 / 5 * 2 + 0))
      ∧ (getNormalizedCost (singleCatalog "t3.nano" ⟨512, 2⟩) (F64.fin (1 / 10)) "t3.nano").2
        ≠ F64.fin ((1 / 10) / (36 / 5 * 2 + 512 / 1024))
      ∧ (getNormalizedCost (singleCatalog "t3.medium" ⟨4096, 2⟩) (F64.fin (1 / 10))
          "t3.medium").2 = F64.fin ((1 / 10) / (36 / 5 * 2 + 4096 / 1024)) := by
  refine ⟨?_, ?_, ?_⟩
  · simp [getNormalizedCost, Catalog.get, singleCatalog, F64.div, F64.mul, F64.add,
      F64.ofInt, cpuMemRelation, Int.tdiv]
  · simp [getNormalizedCost, Catalog.get, singleCatalog, F64.div, F64.mul, F64.add,
      F64.ofInt, cpuMemRelation, Int.tdiv]
    norm_num
  · simp [getNormalizedCost, Catalog.get, singleCatalog, F64.div, F64.mul, F64.add,
      F64.ofInt, cpuMemRelation, Int.tdiv]
    norm_num

/-- C2: when `now` is strictly before `nextScrape`, `Collect` returns the exporter
as it was, whatever the provider would answer: `nextScrape` and `pricingMetrics`
are unchanged, and so are `totalScrapes` and `errorCount`, which a scrape cycle
and its fetchers count in. -/
theorem Collect_before_nextScrape (e : Exporter) (p : Provider) (now : Int)
    (h : now < e.nextScrape) :
    Collect e p now = .ok e
      ∧ (∀ e1, Collect e p now = .ok e1 →
          e1.nextScrape = e.nextScrape ∧ e1.pricingMetrics = e.pricingMetrics
            ∧ e1.totalScrapes = e.totalScrapes ∧ e1.errorCount = e.errorCount) := by
  have hc : Collect e p now = .ok e := by
    unfold Collect
    rw [if_neg (by omega)]
  refine ⟨hc, ?_⟩
  intro e1 h1
  rw [hc] at h1
  cases h1
  exact ⟨rfl, rfl, rfl, rfl⟩

/-- Witness of `Collect_before_nextScrape`: the sample exporter at time 99. -/
theorem Collect_before_nextScrape_witness :
    (99 : Int) < sampleExporter.nextScrape
      ∧ Collect sampleExporter stubProvider 99 = .ok sampleExporter :=
  ⟨by decide, (Collect_before_nextScrape sampleExporter stubProvider 99 (by decide)).1⟩

/-- C3 (the code on an absent instance type): the divisor is zero and nothing
guards the division, so `getNormalizedCost` never returns `(0, 0)`; for a
positive price it returns `(+Inf, +Inf)`. -/
theorem getNormalizedCost_absent (instances : Catalog) (instanceName : String) (value : F64)
    (h : instances instanceName = none) :
    getNormalizedCost instances value instanceName ≠ (F64.fin 0, F64.fin 0)
      ∧ (∀ q : ℚ, 0 < q → value = F64.fin q →
          getNormalizedCost instances value instanceName = (F64.posInf, F64.posInf)) := by
  constructor
  · cases value with
    | fin q =>
      by_cases hq : q = 0
      · simp [getNormalizedCost, Catalog.get, h, F64.div, F64.mul, F64.add, F64.ofInt,
          cpuMemRelation, Int.tdiv, hq]
      · by_cases hp : 0 < q <;>
          simp [getNormalizedCost, Catalog.get, h, F64.div, F64.mul, F64.add, F64.ofInt,
            cpuMemRelation, Int.tdiv, hq, hp, F64.inf]
    | posInf =>
      simp [getNormalizedCost, Catalog.get, h, F64.div, F64.mul, F64.add, F64.ofInt,
        cpuMemRelation, Int.tdiv, F64.inf]
    | negInf =>
      simp [getNormalizedCost, Catalog.get, h, F64.div, F64.mul, F64.add, F64.ofInt,
        cpuMemRelation, Int.tdiv, F64.inf]
    | nan =>
      simp [getNormalizedCost, Catalog.get, h, F64.div, F64.mul, F64.add, F64.ofInt,
        cpuMemRelation, Int.tdiv, F64.inf]
  · intro q hq hv
    subst hv
    have hq0 : q ≠ 0 := ne_of_gt hq
    simp [getNormalizedCost, Catalog.get, h, F64.div, F64.mul, F64.add, F64.ofInt,
      cpuMemRelation, Int.tdiv, hq0, hq, F64.inf]

/-- Witness of `getNormalizedCost_absent`: the empty catalog and the price 0.10. -/
theorem getNormalizedCost_absent_witness :
    emptyCatalog "m5.large" = none
      ∧ getNormalizedCost emptyCatalog (F64.fin (1 / 10)) "m5.large"
          = (F64.posInf, F64.posInf) :=
  ⟨rfl, (getNormalizedCost_absent emptyCatalog "m5.large" (F64.fin (1 / 10)) rfl).2
    (1 / 10) (by norm_num) rfl⟩

/-- C4 (counterexample): the spot fetcher, for the record of a type that the
catalog lacks, sends `ec2_memory` and `ec2_vcpu` next to `ec2`. -/
theorem getSpotPricing_absent_type_sends_unit_prices :
    sampleExporter.instances "m5.large" = none
      ∧ (getSpotPricing sampleExporter
            (spotProvider [⟨"m5.large", "0.10", "eu-west-1a", "Linux/UNIX"⟩])
            "eu-west-1" ⟨0, []⟩).map namesAndValues
          = .ok [("ec2", F64.fin (1 / 10)), ("ec2_memory", F64.posInf),
                 ("ec2_vcpu", F64.posInf)] := by
  constructor
  · simp [sampleExporter, singleCatalog]
  · simp [getSpotPricing, spotProvider, stubProvider, spotPages, spotRecord, isMatchAny,
      sampleExporter, Run.send, Run.addError, spotResults, namesAndValues, Except.map,
      getNormalizedCost, Catalog.get, singleCatalog, F64.div, F64.mul, F64.add, F64.ofInt,
      cpuMemRelation, Int.tdiv, F64.inf]

/-- C4 (amended): for a record whose instance type the catalog lacks, the spot
fetcher (when the type passes the instance-type filter) sends one `ec2`, one
`ec2_memory` and one `ec2_vcpu` value, and the on-demand fetcher sends the three
once per availability zone; the `ec2` value carries the labels `memory = "0"` and
`vcpu = "0"`. -/
theorem absent_type_sends_all_three (e : Exporter) (p : Provider) (region : String)
    (st : Run) (price : SpotPrice) (out : Pricing) (azs : List String)
    (hs : e.instances price.InstanceType = none)
    (hm : isMatchAny e.instanceRegexes price.InstanceType = true)
    (ho : e.instances (out.Product.Attributes "instanceType") = none) :
    ((spotRecord e p region st price).scrapes
        = st.scrapes ++ spotResults e region price (p.ParseFloat price.SpotPrice).1
      ∧ (spotResults e region price (p.ParseFloat price.SpotPrice).1).map
          (fun r => (r.Name, r.InstanceType, r.Memory, r.VCpu))
        = [("ec2", price.InstanceType, "0", "0"), ("ec2_memory", price.InstanceType, "", ""),
           ("ec2_vcpu", price.InstanceType, "", "")])
    ∧ ((onDemandRecord e p region azs st out).scrapes
        = st.scrapes ++ azs.flatMap
            (onDemandResults e region out (p.ParseFloat (onDemandPriceString out)).1)
      ∧ ∀ az, (onDemandResults e region out (p.ParseFloat (onDemandPriceString out)).1 az).map
          (fun r => (r.Name, r.AvailabilityZone, r.Memory, r.VCpu))
        = [("ec2", az, "0", "0"), ("ec2_memory", az, "", ""), ("ec2_vcpu", az, "", "")]) := by
  refine ⟨⟨?_, ?_⟩, ?_, ?_⟩
  · rw [spotRecord_of_match e p region st price hm]
  · simp [spotResults, getInstanceMemory, getInstanceVCpu, Catalog.get, hs]
    decide
  · rw [onDemandRecord_eq]
  · intro az
    simp [onDemandResults, getInstanceMemory, getInstanceVCpu, Catalog.get, ho]
    decide

/-- Witness of `absent_type_sends_all_three`: the sample exporter and a record of
type `m5.large`, which its catalog lacks. -/
theorem absent_type_sends_all_three_witness :
    ((spotRecord sampleExporter stubProvider "eu-west-1" ⟨0, []⟩
        ⟨"m5.large", "0.10", "eu-west-1a", "Linux/UNIX"⟩).scrapes.map (fun r => r.Name)
      = ["ec2", "ec2_memory", "ec2_vcpu"]) := by
  have h := (absent_type_sends_all_three sampleExporter stubProvider "eu-west-1" ⟨0, []⟩
    ⟨"m5.large", "0.10", "eu-west-1a", "Linux/UNIX"⟩ (stubProvider.Unmarshal "") ["eu-west-1a"]
    (by simp [sampleExporter, singleCatalog]) (by simp [sampleExporter, isMatchAny])
    (by simp [sampleExporter, singleCatalog, stubProvider])).1
  rw [h.1]
  simp [spotResults]

/-- C5 (counterexample): the spot fetcher, for a record whose price does not
parse, counts one error and still sends the three values, with the value 0 that
`ParseFloat` returned. -/
theorem getSpotPricing_unparsed_price_is_sent :
    (stubProvider.ParseFloat "abc").2 = true
      ∧ (getSpotPricing sampleExporter
            (spotProvider [⟨"t3.medium", "abc", "eu-west-1a", "Linux/UNIX"⟩])
            "eu-west-1" ⟨0, []⟩).map (fun st => (st.errorCount, namesAndValues st))
          = .ok (1, [("ec2", F64.fin 0), ("ec2_memory", F64.fin 0), ("ec2_vcpu", F64.fin 0)]) := by
  have h0 : ¬ ((36 : ℚ) / 5 * 2 + 4 = 0) := by norm_num
  constructor
  · simp [stubProvider]
  · simp [getSpotPricing, spotProvider, stubProvider, spotPages, spotRecord, isMatchAny,
      sampleExporter, Run.send, Run.addError, spotResults, namesAndValues, Except.map,
      getNormalizedCost, Catalog.get, singleCatalog, F64.div, F64.mul, F64.add, F64.ofInt,
      cpuMemRelation, Int.tdiv, F64.inf, h0]

/-- C5 (amended): for a record whose price string fails to parse (and, in the spot
and savings-plan fetchers, whose type passes the instance-type filter), each
record loop adds one to the error counter, still sends the values of that record
with the value that `ParseFloat` returned, and goes on with the remaining
records. -/
theorem unparsed_price_counted_and_sent (e : Exporter) (p : Provider) (region : String)
    (st : Run) (price : SpotPrice) (history : List SpotPrice)
    (out : Pricing) (outs : List Pricing) (azs : List String)
    (plan : SavingsPlanOfferingRate) (plans : List SavingsPlanOfferingRate) (years : Int)
    (hsm : isMatchAny e.instanceRegexes price.InstanceType = true)
    (hse : (p.ParseFloat price.SpotPrice).2 = true)
    (hoe : (p.ParseFloat (onDemandPriceString out)).2 = true)
    (hpm : isMatchAny e.instanceRegexes plan.InstanceType = true)
    (hpe : (p.ParseFloat plan.Rate).2 = true)
    (hpy : SecondsToYears plan.DurationSeconds = .ok years) :
    (price :: history).foldl (spotRecord e p region) st
        = history.foldl (spotRecord e p region)
            ⟨(st.errorCount + 1) % 2 ^ 64,
             st.scrapes ++ spotResults e region price (p.ParseFloat price.SpotPrice).1⟩
    ∧ (out :: outs).foldl (onDemandRecord e p region azs) st
        = outs.foldl (onDemandRecord e p region azs)
            ⟨(st.errorCount + 1) % 2 ^ 64,
             st.scrapes ++ azs.flatMap
               (onDemandResults e region out (p.ParseFloat (onDemandPriceString out)).1)⟩
    ∧ savingPlanRecords e p region (plan :: plans) st
        = savingPlanRecords e p region plans
            ⟨(st.errorCount + 1) % 2 ^ 64,
             st.scrapes ++ savingPlanResults e region plan (p.ParseFloat plan.Rate).1 years⟩ := by
  refine ⟨?_, ?_, ?_⟩
  · rw [List.foldl_cons, spotRecord_of_match e p region st price hsm, if_pos hse]
  · rw [List.foldl_cons, onDemandRecord_eq, if_pos hoe]
  · rw [savingPlanRecords, savingPlanRecord_of_match e p region st plan years hpm hpy,
      if_pos hpe]

/-- Witness of `unparsed_price_counted_and_sent`: records with the price `"abc"`
at the sample exporter. -/
theorem unparsed_price_counted_and_sent_witness :
    ([(⟨"t3.medium", "abc", "eu-west-1a", "Linux/UNIX"⟩ : SpotPrice)].foldl
        (spotRecord sampleExporter stubProvider "eu-west-1") ⟨0, []⟩).errorCount = 1 := by
  have h := (unparsed_price_counted_and_sent sampleExporter stubProvider "eu-west-1" ⟨0, []⟩
    ⟨"t3.medium", "abc", "eu-west-1a", "Linux/UNIX"⟩ [] (stubProvider.Unmarshal "") []
    ["eu-west-1a"] ⟨"t3.medium", "Linux/UNIX", "abc", "No Upfront", 31536000, "Compute"⟩ [] 1
    (by simp [sampleExporter, isMatchAny]) (by simp [stubProvider])
    (by simp [stubProvider, onDemandPriceString])
    (by simp [sampleExporter, isMatchAny]) (by simp [stubProvider])
    (by simp [SecondsToYears, Int.tdiv])).1
  rw [h]
  simp


/-- C6 (the code at the failing input): in a cycle over one region whose spot
page fetch fails, the fetcher counts the failure in `e.errorCount`, and `scrape`
sets the gauge `scrapeErrors` from its own local counter, to 0; the same happens
to a record whose price does not parse. -/
theorem scrape_gauge_misses_fetcher_errors :
    (scrape sampleExporter failingSpotProvider).map
        (fun r => (r.1.scrapeErrors, r.1.errorCount)) = .ok (F64.fin 0, 1)
      ∧ (scrape sampleExporter
            (spotProvider [⟨"t3.medium", "abc", "eu-west-1a", "Linux/UNIX"⟩])).map
          (fun r => (r.1.scrapeErrors, r.1.errorCount)) = .ok (F64.fin 0, 1) := by
  constructor
  · simp [scrape, scrapeRegions, scrapeRegion, inRegions, contains, sampleExporter,
      failingSpotProvider, stubProvider, getSpotPricing, spotPages, Run.addError,
      Except.map, F64.ofInt]
  · simp [scrape, scrapeRegions, scrapeRegion, inRegions, contains, sampleExporter,
      spotProvider, stubProvider, getSpotPricing, spotPages, spotRecord, isMatchAny,
      Run.addError, Run.send, Except.map, F64.ofInt]

/-- C7 (counterexample): when the availability-zone lookup of a region fails,
`getOnDemandPricing` ends the process (`log.Fatalf`), and so does the `Collect`
that runs the cycle, whatever the other region would have sent. -/
theorem getOnDemandPricing_fatal_on_zone_lookup :
    onDemandProvider.DescribeAvailabilityZones "eu-west-1" = none
      ∧ getOnDemandPricing onDemandExporter onDemandProvider "eu-west-1" ⟨0, []⟩
          = .error .fatal
      ∧ Collect onDemandExporter onDemandProvider 101 = .error .fatal := by
  refine ⟨?_, ?_, ?_⟩
  · simp [onDemandProvider]
  · simp [getOnDemandPricing, getAZs, onDemandProvider]
  · simp [Collect, scrape, scrapeRegions, scrapeRegion, inRegions, contains, initGauges,
      onDemandExporter, sampleExporter, getOnDemandPricing, getAZs, onDemandProvider]

/-- C7 (amended): when the first spot price page of a region fails,
`getSpotPricing` returns normally and sends nothing for that region (it counts
the error); in a cycle with the spot lifecycle only the loop goes on with the
remaining regions; and every value that a completed cycle sends is present,
under its label tuple, in the metric set that `Collect` installs. -/
theorem spot_page_failure_is_contained (e : Exporter) (p : Provider) (region : String)
    (others : List String) (errorCount : Nat) (st : Run)
    (pg : PageResult (List SpotPrice)) (rest : List (PageResult (List SpotPrice)))
    (hpg : p.DescribeSpotPriceHistory region = pg :: rest) (herr : pg.err = true)
    (hspot : contains e.lifecycle "spot" = true)
    (hod : contains e.lifecycle "ondemand" = false)
    (hin : inRegions e region = true) :
    getSpotPricing e p region st = .ok ⟨(st.errorCount + 1) % 2 ^ 64, st.scrapes⟩
      ∧ scrapeRegions e p (region :: others) errorCount st
          = scrapeRegions e p others
              (if p.LoadDefaultConfig region then (errorCount + 1) % 2 ^ 64 else errorCount)
              ⟨(st.errorCount + 1) % 2 ^ 64, st.scrapes⟩
      ∧ (∀ now e2 obs, e.nextScrape < now → scrape (initGauges e) p = .ok (e2, obs) →
          ∃ e1, Collect e p now = .ok e1
            ∧ ∀ o ∈ obs, hasSeries e1.pricingMetrics o.Name (seriesKey o) = true) := by
  have h1 : getSpotPricing e p region st = .ok ⟨(st.errorCount + 1) % 2 ^ 64, st.scrapes⟩ := by
    simp [getSpotPricing, hpg, spotPages, herr, Run.addError]
  refine ⟨h1, ?_, ?_⟩
  · rw [scrapeRegions]
    simp [hin, scrapeRegion, hspot, hod, h1]
  · intro now e2 obs hnow hs
    obtain ⟨hm, -⟩ := scrape_pricingMetrics _ p e2 obs hs
    have hw : WellFormed e2.pricingMetrics := by
      rw [hm]
      exact initMetrics_wellFormed
    obtain ⟨m1, hset, -, hser⟩ :=
      setPricingMetrics_ok obs e2.pricingMetrics hw (scrape_allKnown _ p e2 obs hs)
    refine ⟨_, Collect_of_scrape e p now e2 obs m1 hnow hs hset, ?_⟩
    · intro o ho
      exact (hser o.Name (seriesKey o)).mpr (Or.inr ⟨o, ho, rfl, rfl⟩)

/-- Witness of `spot_page_failure_is_contained`: the sample exporter and the
provider whose first spot page fails. -/
theorem spot_page_failure_is_contained_witness :
    getSpotPricing sampleExporter failingSpotProvider "eu-west-1" ⟨0, []⟩ = .ok ⟨1, []⟩ :=
  (spot_page_failure_is_contained sampleExporter failingSpotProvider "eu-west-1" [] 0 ⟨0, []⟩
    ⟨none, true⟩ [] rfl rfl (by simp [contains, sampleExporter])
    (by simp [contains, sampleExporter]) (by simp [inRegions, sampleExporter])).1


/-- C8: when the availability-zone lookup returns `azs` and the price-list pages
are fetched, `getOnDemandPricing` returns and sends, for each decoded record and
each zone in turn, three values: an `ec2` value labelled with that zone whose
value is the parsed `PricePerUnit["USD"]` of the record's on-demand, per-hour
price dimension (keys `sku.JRTCKXETXF` and `sku.JRTCKXETXF.6YS6EN2CT7`), and an
`ec2_memory` and an `ec2_vcpu` value labelled with that zone whose values are the
normalised costs of that price. With `n` records and `k` zones it sends `n * k`
values of each name. -/
theorem getOnDemandPricing_per_zone (e : Exporter) (p : Provider) (region : String)
    (st : Run) (azs : List String) (errorCount : Nat) (pricelists : List (List String))
    (hz : p.DescribeAvailabilityZones region = some azs)
    (hp : onDemandPricelists p region e.operatingSystems (st.errorCount, [])
            = .ok (errorCount, pricelists)) :
    ∃ st1 sent, getOnDemandPricing e p region st = .ok st1
      ∧ st1.scrapes = st.scrapes ++ sent
      ∧ sent = (pricelists.flatMap (fun pricelist => pricelist.map p.Unmarshal)).flatMap
          (fun out => azs.flatMap (fun az =>
            onDemandResults e region out
              (p.ParseFloat
                (((out.Terms.OnDemand (out.Product.Sku ++ "." ++ "JRTCKXETXF")).PriceDimensions
                  (out.Product.Sku ++ "." ++ "JRTCKXETXF" ++ "." ++ "6YS6EN2CT7")).PricePerUnit
                  "USD")).1 az))
      ∧ sent.countP (fun r => r.Name == "ec2")
          = (pricelists.flatMap (fun pricelist => pricelist.map p.Unmarshal)).length * azs.length
      ∧ sent.countP (fun r => r.Name == "ec2_memory")
          = (pricelists.flatMap (fun pricelist => pricelist.map p.Unmarshal)).length * azs.length
      ∧ sent.countP (fun r => r.Name == "ec2_vcpu")
          = (pricelists.flatMap (fun pricelist => pricelist.map p.Unmarshal)).length * azs.length
      ∧ ∀ out v az,
          (onDemandResults e region out v az).map (fun r => (r.Name, r.AvailabilityZone))
            = [("ec2", az), ("ec2_memory", az), ("ec2_vcpu", az)]
          ∧ (onDemandResults e region out v az).head?.map (fun r => r.Value) = some v
          ∧ onDemandResults e region out v az
            = [ { Name := "ec2", Value := v, Region := region, AvailabilityZone := az,
                  InstanceType := out.Product.Attributes "instanceType",
                  InstanceLifecycle := "ondemand",
                  OperatingSystem := out.Product.Attributes "operatingSystem",
                  ProductDescription := out.Product.Attributes "productDescription",
                  Memory := toString
                    (e.instances.get (out.Product.Attributes "instanceType")).Memory,
                  VCpu := toString
                    (e.instances.get (out.Product.Attributes "instanceType")).VCpu },
                { Name := "ec2_memory",
                  Value := (getNormalizedCost e.instances v
                    (out.Product.Attributes "instanceType")).2,
                  Region := region, AvailabilityZone := az,
                  InstanceType := out.Product.Attributes "instanceType",
                  InstanceLifecycle := "ondemand" },
                { Name := "ec2_vcpu",
                  Value := (getNormalizedCost e.instances v
                    (out.Product.Attributes "instanceType")).1,
                  Region := region, AvailabilityZone := az,
                  InstanceType := out.Product.Attributes "instanceType",
                  InstanceLifecycle := "ondemand" } ] := by
  have houts : pricelists.flatMap (fun pricelist => pricelist.map p.Unmarshal)
      = onDemandOuts p pricelists := rfl
  have hprice : ∀ out : Pricing,
      (((out.Terms.OnDemand (out.Product.Sku ++ "." ++ "JRTCKXETXF")).PriceDimensions
        (out.Product.Sku ++ "." ++ "JRTCKXETXF" ++ "." ++ "6YS6EN2CT7")).PricePerUnit "USD")
      = onDemandPriceString out := fun _ => rfl
  simp only [houts, hprice]
  have hcount : ∀ (name : String), name = "ec2" ∨ name = "ec2_memory" ∨ name = "ec2_vcpu" →
      ((onDemandOuts p pricelists).flatMap (fun out => azs.flatMap (fun az =>
          onDemandResults e region out (p.ParseFloat (onDemandPriceString out)).1 az))).countP
        (fun r => r.Name == name) = (onDemandOuts p pricelists).length * azs.length := by
    intro name hname
    have hone : ∀ out v az,
        (onDemandResults e region out v az).countP (fun r => r.Name == name) = 1 := by
      intro out v az
      rcases hname with h | h | h <;> subst h <;>
        simp [onDemandResults, List.countP_cons]
    have hall := countP_flatMap_const (fun r : scrapeResult => r.Name == name)
      (fun out => azs.flatMap (fun az =>
        onDemandResults e region out (p.ParseFloat (onDemandPriceString out)).1 az))
      (azs.length * 1) (onDemandOuts p pricelists)
      (fun out => countP_flatMap_const _ _ 1 azs (fun az => hone out _ az))
    simpa using hall
  refine ⟨(onDemandOuts p pricelists).foldl (onDemandRecord e p region azs)
      { st with errorCount := errorCount },
    (onDemandOuts p pricelists).flatMap (fun out => azs.flatMap (fun az =>
      onDemandResults e region out (p.ParseFloat (onDemandPriceString out)).1 az)),
    ?_, ?_, rfl, hcount "ec2" (Or.inl rfl), hcount "ec2_memory" (Or.inr (Or.inl rfl)),
    hcount "ec2_vcpu" (Or.inr (Or.inr rfl)), ?_⟩
  · simp only [getOnDemandPricing, getAZs, hz, hp]
  · rw [onDemandRecords_scrapes]
  · intro out v az
    exact ⟨by simp [onDemandResults], by simp [onDemandResults], rfl⟩

/-- Witness of `getOnDemandPricing_per_zone`: one `t3.medium` record priced `"0.10"`
under its on-demand, per-hour keys and three zones in `eu-west-1` give three
values of each name, with the price 0.10 and its normalised costs `0.10 / 18.4`
and `7.2 * 0.10 / 18.4`. -/
theorem getOnDemandPricing_per_zone_witness :
    (getOnDemandPricing onDemandExporter zonedOnDemandProvider "eu-west-1" ⟨0, []⟩).map
        (fun st => st.scrapes.map (fun r => (r.Name, r.AvailabilityZone, r.Value)))
      = .ok [("ec2", "eu-west-1a", F64.fin (1 / 10)),
             ("ec2_memory", "eu-west-1a", F64.fin (1 / 184)),
             ("ec2_vcpu", "eu-west-1a", F64.fin (9 / 230)),
             ("ec2", "eu-west-1b", F64.fin (1 / 10)),
             ("ec2_memory", "eu-west-1b", F64.fin (1 / 184)),
             ("ec2_vcpu", "eu-west-1b", F64.fin (9 / 230)),
             ("ec2", "eu-west-1c", F64.fin (1 / 10)),
             ("ec2_memory", "eu-west-1c", F64.fin (1 / 184)),
             ("ec2_vcpu", "eu-west-1c", F64.fin (9 / 230))] := by
  obtain ⟨st1, sent, h1, h2, h3, -⟩ :=
    getOnDemandPricing_per_zone onDemandExporter zonedOnDemandProvider "eu-west-1" ⟨0, []⟩
      ["eu-west-1a", "eu-west-1b", "eu-west-1c"] 0 [["entry"]]
      (by simp [zonedOnDemandProvider])
      (by simp [onDemandPricelists, onDemandPages, onDemandExporter, sampleExporter,
            zonedOnDemandProvider])
  have h0 : ¬ ((36 : ℚ) / 5 * 2 + 4 = 0) := by norm_num
  rw [h1]
  simp [Except.map, h2, h3, onDemandResults, zonedOnDemandProvider, stubProvider,
    onDemandExporter, sampleExporter, getNormalizedCost, Catalog.get, singleCatalog,
    F64.div, F64.mul, F64.add, F64.ofInt, cpuMemRelation, Int.tdiv, h0]
  norm_num

/-- C9 (the code at the failing input): with the single pattern `m5.large`, which
the type `c5.large` does not match, the on-demand fetcher still sends the three
values of a `c5.large` record, where the spot fetcher sends none. -/
theorem getOnDemandPricing_ignores_instance_filter :
    isMatchAny onDemandExporter.instanceRegexes "c5.large" = false
      ∧ (getOnDemandPricing onDemandExporter onDemandProvider "us-east-1" ⟨0, []⟩).map
          (fun st => st.scrapes.map (fun r => (r.Name, r.InstanceType)))
        = .ok [("ec2", "c5.large"), ("ec2_memory", "c5.large"), ("ec2_vcpu", "c5.large")]
      ∧ (getSpotPricing onDemandExporter
            (spotProvider [⟨"c5.large", "0.10", "us-east-1a", "Linux/UNIX"⟩])
            "us-east-1" ⟨0, []⟩).map (fun st => st.scrapes) = .ok [] := by
  refine ⟨?_, ?_, ?_⟩
  · simp [isMatchAny, onDemandExporter, sampleExporter]
  · simp [getOnDemandPricing, getAZs, onDemandPricelists, onDemandPages, onDemandExporter,
      sampleExporter, onDemandProvider, onDemandOuts, onDemandRecord, onDemandResults,
      Run.send, Run.addError, Except.map, stubProvider, onDemandPriceString]
  · simp [getSpotPricing, spotProvider, stubProvider, spotPages, spotRecord, isMatchAny,
      onDemandExporter, sampleExporter, Except.map]

/-- C10: when `now` is after `nextScrape` and the scrape cycle completes having
sent `obs`, `Collect` returns, and the metric set it installs holds a gauge under
a family name and label tuple exactly when some value of `obs` has that name and
that tuple, whatever the previous metric set held; with no value sent it is the
map of `initGauges`, which holds the three families and no gauge. -/
theorem Collect_installs_fresh_metrics (e : Exporter) (p : Provider) (now : Int)
    (e2 : Exporter) (obs : List scrapeResult) (hnow : e.nextScrape < now)
    (hs : scrape (initGauges e) p = .ok (e2, obs)) :
    ∃ e1, Collect e p now = .ok e1
      ∧ (∀ name lvs, hasSeries e1.pricingMetrics name lvs = true ↔
          ∃ o ∈ obs, o.Name = name ∧ seriesKey o = lvs)
      ∧ (obs = [] → e1.pricingMetrics = initMetrics)
      ∧ (∀ name, (initMetrics name).isSome = true ↔ knownName name)
      ∧ (∀ name lvs, hasSeries initMetrics name lvs = false) := by
  obtain ⟨hm, -⟩ := scrape_pricingMetrics _ p e2 obs hs
  have hm1 : e2.pricingMetrics = initMetrics := hm
  have hw : WellFormed e2.pricingMetrics := by
    rw [hm1]
    exact initMetrics_wellFormed
  obtain ⟨m1, hset, -, hser⟩ :=
    setPricingMetrics_ok obs e2.pricingMetrics hw (scrape_allKnown _ p e2 obs hs)
  refine ⟨_, Collect_of_scrape e p now e2 obs m1 hnow hs hset, ?_, ?_, ?_,
    hasSeries_initMetrics⟩
  · intro name lvs
    rw [hser, hm1, hasSeries_initMetrics]
    simp
  · intro hobs
    subst hobs
    simp only [setPricingMetrics, Except.ok.injEq] at hset
    rw [← hset, hm1]
  · intro name
    unfold initMetrics knownName
    by_cases h1 : name = "ec2"
    · simp [h1]
    · by_cases h2 : name = "ec2_memory"
      · simp [h2]
      · by_cases h3 : name = "ec2_vcpu"
        · simp [h3]
        · simp [h1, h2, h3]


/-- Witness of `Collect_installs_fresh_metrics`: after a cycle with one spot
record of type `t3.medium`, the metric set holds the tuple of that record and no
longer the tuple of type `m5.large` that the previous set held. -/
theorem Collect_installs_fresh_metrics_witness :
    hasSeries staleExporter.pricingMetrics "ec2_memory"
        ["spot", "m5.large", "eu-west-1", "eu-west-1a"] = true
      ∧ ∃ e1, Collect staleExporter
            (spotProvider [⟨"t3.medium", "0.10", "eu-west-1a", "Linux/UNIX"⟩]) 101 = .ok e1
          ∧ hasSeries e1.pricingMetrics "ec2_memory"
              ["spot", "t3.medium", "eu-west-1", "eu-west-1a"] = true
          ∧ hasSeries e1.pricingMetrics "ec2_memory"
              ["spot", "m5.large", "eu-west-1", "eu-west-1a"] = false := by
  have hs : scrape (initGauges staleExporter)
        (spotProvider [⟨"t3.medium", "0.10", "eu-west-1a", "Linux/UNIX"⟩])
      = .ok ({ initGauges staleExporter with
                 totalScrapes := 1, errorCount := 0, scrapeErrors := F64.fin 0,
                 duration := F64.fin 0 },
             spotResults staleExporter "eu-west-1"
               ⟨"t3.medium", "0.10", "eu-west-1a", "Linux/UNIX"⟩ (F64.fin (1 / 10))) := by
    simp [scrape, scrapeRegions, scrapeRegion, inRegions, contains, initGauges, staleExporter,
      sampleExporter, spotProvider, stubProvider, getSpotPricing, spotPages, spotRecord,
      isMatchAny, Run.send, Run.addError, F64.ofInt, spotResults]
  obtain ⟨e1, hc, hser, -⟩ := Collect_installs_fresh_metrics staleExporter
    (spotProvider [⟨"t3.medium", "0.10", "eu-west-1a", "Linux/UNIX"⟩]) 101 _ _
    (by decide) hs
  refine ⟨by simp [hasSeries, staleExporter], e1, hc, ?_, ?_⟩
  · rw [hser]
    simp [spotResults, seriesKey, labelsOf, labelValues, unitLabels, List.lookup]
  · rw [Bool.eq_false_iff]
    intro h
    rw [hser] at h
    simp [spotResults, seriesKey, labelsOf, labelValues, unitLabels, ec2Labels,
      List.lookup] at h


/-! ### The metric set as a fold over the observations -/

theorem setPricingMetric_applyObs (m : MetricSet) (scr : scrapeResult) (hm : WellFormed m)
    (hn : knownName scr.Name) : setPricingMetric m scr = .ok (applyObs m scr) := by
  obtain ⟨g, hg, hl⟩ := wellFormed_family m hm scr.Name hn
  rw [setPricingMetric_eq m scr g hg hl hn]
  congr 1
  funext name
  by_cases hk : name = scr.Name
  · subst hk
    simp [applyObs, hg]
  · simp [applyObs, hk]

theorem applyObs_exactFamilies (m : MetricSet) (scr : scrapeResult) (hm : ExactFamilies m)
    (hn : knownName scr.Name) : ExactFamilies (applyObs m scr) := by
  obtain ⟨m1, h1, w1, -⟩ := setPricingMetric_ok m scr hm.1 hn
  rw [setPricingMetric_applyObs m scr hm.1 hn] at h1
  cases h1
  refine ⟨w1, ?_⟩
  intro name hname
  have hk : name ≠ scr.Name := fun h => hname (h ▸ hn)
  simp [applyObs, hk, hm.2 name hname]

theorem setPricingMetrics_foldl (obs : List scrapeResult) (m : MetricSet)
    (hm : ExactFamilies m) (hn : AllKnown obs) :
    setPricingMetrics m obs = .ok (obs.foldl applyObs m) := by
  induction obs generalizing m with
  | nil => rfl
  | cons scr rest ih =>
    have hk : knownName scr.Name := hn scr (List.mem_cons_self scr rest)
    rw [setPricingMetrics, setPricingMetric_applyObs m scr hm.1 hk]
    exact ih (applyObs m scr) (applyObs_exactFamilies m scr hm hk)
      (fun o ho => hn o (List.mem_cons_of_mem scr ho))

theorem setPricingMetrics_unknown (obs : List scrapeResult) (m : MetricSet)
    (hm : ExactFamilies m) (hn : ¬ AllKnown obs) :
    setPricingMetrics m obs = .error .panic := by
  induction obs generalizing m with
  | nil => exact absurd (fun o ho => by simp at ho) hn
  | cons scr rest ih =>
    by_cases hk : knownName scr.Name
    · rw [setPricingMetrics, setPricingMetric_applyObs m scr hm.1 hk]
      refine ih (applyObs m scr) (applyObs_exactFamilies m scr hm hk) ?_
      intro hrest
      apply hn
      intro o ho
      rcases List.mem_cons.mp ho with rfl | ho
      · exact hk
      · exact hrest o ho
    · have hnone : m scr.Name = none := hm.2 scr.Name hk
      have h1 : ¬ scr.Name = "ec2" := fun h => hk (Or.inl h)
      have h2 : ¬ scr.Name = "ec2_memory" := fun h => hk (Or.inr (Or.inl h))
      have h3 : ¬ scr.Name = "ec2_vcpu" := fun h => hk (Or.inr (Or.inr h))
      simp [setPricingMetrics, setPricingMetric, hnone, h1, h2, h3]

theorem initMetrics_exactFamilies : ExactFamilies initMetrics := by
  refine ⟨initMetrics_wellFormed, ?_⟩
  intro name hname
  have h1 : ¬ name = "ec2" := fun h => hname (Or.inl h)
  have h2 : ¬ name = "ec2_memory" := fun h => hname (Or.inr (Or.inl h))
  have h3 : ¬ name = "ec2_vcpu" := fun h => hname (Or.inr (Or.inr h))
  simp [initMetrics, h1, h2, h3]

theorem applyObs_comm (z : MetricSet) (x y : scrapeResult)
    (h : x.Name = y.Name → seriesKey x = seriesKey y → x.Value = y.Value) :
    applyObs (applyObs z x) y = applyObs (applyObs z y) x := by
  funext name
  by_cases hx : name = x.Name <;> by_cases hy : name = y.Name
  · have hxy : x.Name = y.Name := hx.symm.trans hy
    cases hz : z y.Name with
    | none => simp [applyObs, hx, hxy, hz]
    | some g =>
      simp only [applyObs, hx, hxy, hz, if_true]
      congr 2
      funext k
      by_cases hkx : k = seriesKey x <;> by_cases hky : k = seriesKey y
      · simp [hkx, hky, h hxy (hkx.symm.trans hky)]
      · subst hkx
        simp [hky, fun h : seriesKey y = seriesKey x => hky h.symm]
      · subst hky
        simp [hkx, fun h : seriesKey x = seriesKey y => hkx h.symm]
      · simp [hkx, hky]
  · have hne : ¬ x.Name = y.Name := fun h => hy (hx.trans h)
    cases hz : z x.Name <;> simp [applyObs, hx, hne, hz]
  · have hne : ¬ y.Name = x.Name := fun h => hx (hy.trans h)
    cases hz : z y.Name <;> simp [applyObs, hy, hne, hz]
  · simp [applyObs, hx, hy]


theorem applyObs_overwrite (z : MetricSet) (x y : scrapeResult) (hn : x.Name = y.Name)
    (hk : seriesKey x = seriesKey y) : applyObs (applyObs z x) y = applyObs z y := by
  funext name
  by_cases hy : name = y.Name
  · cases hz : z y.Name with
    | none => simp [applyObs, hy, hn, hz]
    | some g =>
      simp only [applyObs, hy, hn, hz, if_true]
      congr 2
      funext k
      by_cases hky : k = seriesKey y
      · simp [hky]
      · simp [hky, hk]
  · have hx : ¬ name = x.Name := fun h => hy (h.trans hn)
    simp [applyObs, hy, hx]

theorem applyObs_absorb (l : List scrapeResult) (m : MetricSet) (o : scrapeResult) :
    applyObs (l.foldl applyObs (applyObs m o)) o = applyObs (l.foldl applyObs m) o := by
  induction l generalizing m with
  | nil => exact applyObs_overwrite m o o rfl rfl
  | cons x rest ih =>
    simp only [List.foldl_cons]
    by_cases hsame : o.Name = x.Name ∧ seriesKey o = seriesKey x
    · rw [applyObs_overwrite m o x hsame.1 hsame.2]
    · rw [applyObs_comm m o x (fun h1 h2 => absurd ⟨h1, h2⟩ hsame)]
      exact ih (applyObs m x)

theorem foldl_applyObs_twice (l : List scrapeResult) (m : MetricSet) :
    l.foldl applyObs (l.foldl applyObs m) = l.foldl applyObs m := by
  induction l using List.reverseRecOn generalizing m with
  | nil => rfl
  | append_singleton rest o ih =>
    simp only [List.foldl_append, List.foldl_cons, List.foldl_nil]
    rw [applyObs_absorb rest (rest.foldl applyObs m) o, ih]

/-- C11 (counterexample): two `ec2_memory` observations with the same label tuple
and different values; the gauge keeps the value of the one sent last, so the list
and its permutation build different metric sets. -/
theorem setPricingMetrics_order_dependent :
    [memoryObs "m5.large" (F64.fin (1 / 10)), memoryObs "m5.large" (F64.fin (1 / 5))].Perm
        [memoryObs "m5.large" (F64.fin (1 / 5)), memoryObs "m5.large" (F64.fin (1 / 10))]
      ∧ (setPricingMetrics initMetrics
            [memoryObs "m5.large" (F64.fin (1 / 10)), memoryObs "m5.large" (F64.fin (1 / 5))]).map
          (fun m => seriesValue m "ec2_memory" ["ondemand", "m5.large", "us-east-1", "us-east-1a"])
        = .ok (some (F64.fin (1 / 5)))
      ∧ (setPricingMetrics initMetrics
            [memoryObs "m5.large" (F64.fin (1 / 5)), memoryObs "m5.large" (F64.fin (1 / 10))]).map
          (fun m => seriesValue m "ec2_memory" ["ondemand", "m5.large", "us-east-1", "us-east-1a"])
        = .ok (some (F64.fin (1 / 10))) := by
  have hk : ∀ v, knownName (memoryObs "m5.large" v).Name := fun v => Or.inr (Or.inl rfl)
  have hkey : ∀ v, seriesKey (memoryObs "m5.large" v)
      = ["ondemand", "m5.large", "us-east-1", "us-east-1a"] := by
    intro v
    simp [seriesKey, memoryObs, labelsOf, labelValues, unitLabels, List.lookup]
  have hall : ∀ v w, AllKnown [memoryObs "m5.large" v, memoryObs "m5.large" w] := by
    intro v w o ho
    simp only [List.mem_cons, List.mem_singleton, List.not_mem_nil, or_false] at ho
    rcases ho with rfl | rfl
    · exact hk v
    · exact hk w
  have hname : ∀ v, (memoryObs "m5.large" v).Name = "ec2_memory" := fun _ => rfl
  have hval : ∀ v, (memoryObs "m5.large" v).Value = v := fun _ => rfl
  refine ⟨List.Perm.swap _ _ _, ?_, ?_⟩
  · rw [setPricingMetrics_foldl _ _ initMetrics_exactFamilies (hall _ _)]
    simp [Except.map, seriesValue, applyObs, hkey, hname, hval, initMetrics]
  · rw [setPricingMetrics_foldl _ _ initMetrics_exactFamilies (hall _ _)]
    simp [Except.map, seriesValue, applyObs, hkey, hname, hval, initMetrics]

/-- C11 (amended): when the observations of a list that share family and label
tuple share the value, `setPricingMetrics`, started from the map of `initGauges`,
builds the same metric set from the list and from every permutation of it; and
for every list, feeding it twice builds the same metric set as feeding it once. -/
theorem setPricingMetrics_perm (l1 l2 : List scrapeResult) (hp : l1.Perm l2)
    (hc : SameKeySameValue l1) :
    setPricingMetrics initMetrics l1 = setPricingMetrics initMetrics l2
      ∧ ∀ l, setPricingMetrics initMetrics (l ++ l) = setPricingMetrics initMetrics l := by
  constructor
  · by_cases hn : AllKnown l1
    · have hn2 : AllKnown l2 := fun o ho => hn o (hp.symm.subset ho)
      rw [setPricingMetrics_foldl l1 _ initMetrics_exactFamilies hn,
        setPricingMetrics_foldl l2 _ initMetrics_exactFamilies hn2]
      congr 1
      exact hp.foldl_eq' (fun x hx y hy z => applyObs_comm z x y (hc x hx y hy)) initMetrics
    · have hn2 : ¬ AllKnown l2 := fun h => hn (fun o ho => h o (hp.subset ho))
      rw [setPricingMetrics_unknown l1 _ initMetrics_exactFamilies hn,
        setPricingMetrics_unknown l2 _ initMetrics_exactFamilies hn2]
  · intro l
    by_cases hn : AllKnown l
    · have hn2 : AllKnown (l ++ l) := allKnown_append hn hn
      rw [setPricingMetrics_foldl l _ initMetrics_exactFamilies hn,
        setPricingMetrics_foldl (l ++ l) _ initMetrics_exactFamilies hn2,
        List.foldl_append, foldl_applyObs_twice]
    · have hn2 : ¬ AllKnown (l ++ l) :=
        fun h => hn (fun o ho => h o (List.mem_append_left l ho))
      rw [setPricingMetrics_unknown l _ initMetrics_exactFamilies hn,
        setPricingMetrics_unknown (l ++ l) _ initMetrics_exactFamilies hn2]

/-- Witness of `setPricingMetrics_perm`: two observations of different instance
types, in both orders. -/
theorem setPricingMetrics_perm_witness :
    setPricingMetrics initMetrics
        [memoryObs "m5.large" (F64.fin (1 / 10)), memoryObs "c5.large" (F64.fin (1 / 5))]
      = setPricingMetrics initMetrics
        [memoryObs "c5.large" (F64.fin (1 / 5)), memoryObs "m5.large" (F64.fin (1 / 10))] :=
  (setPricingMetrics_perm _ _ (List.Perm.swap _ _ _) (by
    intro x hx y hy _ hkey
    simp only [List.mem_cons, List.mem_singleton, List.not_mem_nil, or_false] at hx hy
    rcases hx with rfl | rfl <;> rcases hy with rfl | rfl <;>
      first
        | rfl
        | (exfalso
           simp [seriesKey, memoryObs, labelsOf, labelValues, unitLabels, List.lookup]
             at hkey))).1


theorem exists_outside_cons (d : String) (rest accepted : List String) (hin : d ∈ accepted) :
    (∃ x ∈ rest, x ∉ accepted) ↔ ∃ x ∈ d :: rest, x ∉ accepted := by
  constructor
  · rintro ⟨x, hx, hxa⟩
    exact ⟨x, List.mem_cons_of_mem d hx, hxa⟩
  · rintro ⟨x, hx, hxa⟩
    rcases List.mem_cons.mp hx with rfl | hx
    · exact absurd hin hxa
    · exact ⟨x, hx, hxa⟩

theorem forall_inside_cons (d : String) (rest accepted : List String) (hin : d ∈ accepted) :
    (∀ x ∈ rest, x ∈ accepted) ↔ ∀ x ∈ d :: rest, x ∈ accepted := by
  constructor
  · intro h x hx
    rcases List.mem_cons.mp hx with rfl | hx
    · exact hin
    · exact h x hx
  · intro h x hx
    exact h x (List.mem_cons_of_mem d hx)

/-- C12 (counterexample): `validateSavingPlanTypes` lets the empty string pass,
alone or after an accepted type (the flag value `"Compute,"`), although it is
none of Compute, EC2Instance and SageMaker. -/
theorem validateSavingPlanTypes_accepts_empty :
    "" ∉ ["Compute", "EC2Instance", "SageMaker"]
      ∧ validateSavingPlanTypes [""] = .ok ()
      ∧ validateSavingPlanTypes ["Compute", ""] = .ok () := by
  refine ⟨by decide, ?_, ?_⟩ <;> simp [validateSavingPlanTypes]

/-- C12 (amended): each validator ends the process exactly when the list holds a
value outside its accepted set, and returns otherwise; the accepted sets are the
six product descriptions, the four operating systems, and for savings-plan types
Compute, EC2Instance, SageMaker and the empty string. -/
theorem validators_fatal_iff (l : List String) :
    ((validateProductDesc l = .error .fatal ↔
        ∃ d ∈ l, d ∉ ["Linux/UNIX", "SUSE Linux", "Windows", "Linux/UNIX (Amazon VPC)",
          "SUSE Linux (Amazon VPC)", "Windows (Amazon VPC)"])
      ∧ (validateProductDesc l = .ok () ↔
        ∀ d ∈ l, d ∈ ["Linux/UNIX", "SUSE Linux", "Windows", "Linux/UNIX (Amazon VPC)",
          "SUSE Linux (Amazon VPC)", "Windows (Amazon VPC)"]))
    ∧ ((validateOperatingSystems l = .error .fatal ↔
        ∃ d ∈ l, d ∉ ["Linux", "RHEL", "SUSE", "Windows"])
      ∧ (validateOperatingSystems l = .ok () ↔
        ∀ d ∈ l, d ∈ ["Linux", "RHEL", "SUSE", "Windows"]))
    ∧ ((validateSavingPlanTypes l = .error .fatal ↔
        ∃ d ∈ l, d ∉ ["", "Compute", "EC2Instance", "SageMaker"])
      ∧ (validateSavingPlanTypes l = .ok () ↔
        ∀ d ∈ l, d ∈ ["", "Compute", "EC2Instance", "SageMaker"])) := by
  refine ⟨?_, ?_, ?_⟩
  · induction l with
    | nil => simp [validateProductDesc]
    | cons d rest ih =>
      by_cases hd : d ≠ "Linux/UNIX" ∧ d ≠ "Linux/UNIX (Amazon VPC)" ∧
          d ≠ "SUSE Linux" ∧ d ≠ "SUSE Linux (Amazon VPC)" ∧
          d ≠ "Windows" ∧ d ≠ "Windows (Amazon VPC)"
      · have hout : d ∉ ["Linux/UNIX", "SUSE Linux", "Windows", "Linux/UNIX (Amazon VPC)",
            "SUSE Linux (Amazon VPC)", "Windows (Amazon VPC)"] := by
          simp only [List.mem_cons, List.mem_singleton, List.not_mem_nil, or_false]
          tauto
        rw [validateProductDesc, if_pos hd]
        constructor
        · simp only [true_iff]
          exact ⟨d, List.mem_cons_self d rest, hout⟩
        · simp only [reduceCtorEq, false_iff]
          intro h
          exact hout (h d (List.mem_cons_self d rest))
      · have hin : d ∈ ["Linux/UNIX", "SUSE Linux", "Windows", "Linux/UNIX (Amazon VPC)",
            "SUSE Linux (Amazon VPC)", "Windows (Amazon VPC)"] := by
          simp only [List.mem_cons, List.mem_singleton, List.not_mem_nil, or_false]
          tauto
        rw [validateProductDesc, if_neg hd, ih.1, ih.2]
        exact ⟨exists_outside_cons d rest _ hin, forall_inside_cons d rest _ hin⟩
  · induction l with
    | nil => simp [validateOperatingSystems]
    | cons d rest ih =>
      by_cases hd : d ≠ "Linux" ∧ d ≠ "RHEL" ∧ d ≠ "SUSE" ∧ d ≠ "Windows"
      · have hout : d ∉ ["Linux", "RHEL", "SUSE", "Windows"] := by
          simp only [List.mem_cons, List.mem_singleton, List.not_mem_nil, or_false]
          tauto
        rw [validateOperatingSystems, if_pos hd]
        constructor
        · simp only [true_iff]
          exact ⟨d, List.mem_cons_self d rest, hout⟩
        · simp only [reduceCtorEq, false_iff]
          intro h
          exact hout (h d (List.mem_cons_self d rest))
      · have hin : d ∈ ["Linux", "RHEL", "SUSE", "Windows"] := by
          simp only [List.mem_cons, List.mem_singleton, List.not_mem_nil, or_false]
          tauto
        rw [validateOperatingSystems, if_neg hd, ih.1, ih.2]
        exact ⟨exists_outside_cons d rest _ hin, forall_inside_cons d rest _ hin⟩
  · induction l with
    | nil => simp [validateSavingPlanTypes]
    | cons d rest ih =>
      by_cases hd : d ≠ "" ∧ d ≠ "Compute" ∧ d ≠ "EC2Instance" ∧ d ≠ "SageMaker"
      · have hout : d ∉ ["", "Compute", "EC2Instance", "SageMaker"] := by
          simp only [List.mem_cons, List.mem_singleton, List.not_mem_nil, or_false]
          tauto
        rw [validateSavingPlanTypes, if_pos hd]
        constructor
        · simp only [true_iff]
          exact ⟨d, List.mem_cons_self d rest, hout⟩
        · simp only [reduceCtorEq, false_iff]
          intro h
          exact hout (h d (List.mem_cons_self d rest))
      · have hin : d ∈ ["", "Compute", "EC2Instance", "SageMaker"] := by
          simp only [List.mem_cons, List.mem_singleton, List.not_mem_nil, or_false]
          tauto
        rw [validateSavingPlanTypes, if_neg hd, ih.1, ih.2]
        exact ⟨exists_outside_cons d rest _ hin, forall_inside_cons d rest _ hin⟩


theorem getNormalizedCost_fst (instances : Catalog) (value : F64) (instanceName : String) :
    (getNormalizedCost instances value instanceName).1
      = F64.mul cpuMemRelation (getNormalizedCost instances value instanceName).2 := rfl

/-- C13: for a shape with `VCpu > 0`, the pair that `getNormalizedCost` returns
satisfies `vcpuCost = 7.2 * memoryCost` (for a finite price and a non-negative
memory size both are finite, `memoryCost` being the price over the positive
divisor), and in each fetcher the `ec2_vcpu` value sent for a record is 7.2 times
the `ec2_memory` value sent for it. -/
theorem vcpuCost_eq_ratio_mul_memoryCost (e : Exporter) (region : String) (value : F64)
    (instanceName : String) (hv : 0 < (e.instances.get instanceName).VCpu) :
    (getNormalizedCost e.instances value instanceName).1
        = F64.mul cpuMemRelation (getNormalizedCost e.instances value instanceName).2
      ∧ (∀ q : ℚ, value = F64.fin q → 0 ≤ (e.instances.get instanceName).Memory →
          0 < (36 / 5 : ℚ) * (e.instances.get instanceName).VCpu
                + (Int.tdiv (e.instances.get instanceName).Memory 1024 : Int)
            ∧ getNormalizedCost e.instances value instanceName
              = (F64.fin (36 / 5 * (q / ((36 / 5 : ℚ) * (e.instances.get instanceName).VCpu
                    + (Int.tdiv (e.instances.get instanceName).Memory 1024 : Int)))),
                 F64.fin (q / ((36 / 5 : ℚ) * (e.instances.get instanceName).VCpu
                    + (Int.tdiv (e.instances.get instanceName).Memory 1024 : Int)))))
      ∧ (∀ price : SpotPrice, price.InstanceType = instanceName →
          ∀ r1 ∈ spotResults e region price value, ∀ r2 ∈ spotResults e region price value,
            r1.Name = "ec2_vcpu" → r2.Name = "ec2_memory" →
              r1.Value = F64.mul cpuMemRelation r2.Value)
      ∧ (∀ (out : Pricing) (az : String), out.Product.Attributes "instanceType" = instanceName →
          ∀ r1 ∈ onDemandResults e region out value az,
            ∀ r2 ∈ onDemandResults e region out value az,
              r1.Name = "ec2_vcpu" → r2.Name = "ec2_memory" →
                r1.Value = F64.mul cpuMemRelation r2.Value)
      ∧ (∀ (plan : SavingsPlanOfferingRate) (years : Int), plan.InstanceType = instanceName →
          ∀ r1 ∈ savingPlanResults e region plan value years,
            ∀ r2 ∈ savingPlanResults e region plan value years,
              r1.Name = "ec2_vcpu" → r2.Name = "ec2_memory" →
                r1.Value = F64.mul cpuMemRelation r2.Value) := by
  refine ⟨rfl, ?_, ?_, ?_, ?_⟩
  · intro q hq hm
    subst hq
    have hmem : (0 : Int) ≤ Int.tdiv (e.instances.get instanceName).Memory 1024 :=
      Int.tdiv_nonneg hm (by norm_num)
    have hpos : 0 < (36 / 5 : ℚ) * (e.instances.get instanceName).VCpu
        + (Int.tdiv (e.instances.get instanceName).Memory 1024 : Int) := by
      have h1 : (0 : ℚ) < ((e.instances.get instanceName).VCpu : ℚ) := by exact_mod_cast hv
      have h2 : (0 : ℚ) ≤ ((Int.tdiv (e.instances.get instanceName).Memory 1024 : Int) : ℚ) := by
        exact_mod_cast hmem
      positivity
    refine ⟨hpos, ?_⟩
    simp [getNormalizedCost, F64.div, F64.mul, F64.add, F64.ofInt, cpuMemRelation,
      ne_of_gt hpos]
  · intro price _ r1 h1 r2 h2 n1 n2
    simp only [spotResults, List.mem_cons, List.mem_singleton, List.not_mem_nil,
      or_false] at h1 h2
    rcases h1 with rfl | rfl | rfl <;> rcases h2 with rfl | rfl | rfl <;>
      first
        | rfl
        | (simp at n1; done)
        | simp at n2
  · intro out az _ r1 h1 r2 h2 n1 n2
    simp only [onDemandResults, List.mem_cons, List.mem_singleton, List.not_mem_nil,
      or_false] at h1 h2
    rcases h1 with rfl | rfl | rfl <;> rcases h2 with rfl | rfl | rfl <;>
      first
        | rfl
        | (simp at n1; done)
        | simp at n2
  · intro plan years _ r1 h1 r2 h2 n1 n2
    simp only [savingPlanResults, List.mem_cons, List.mem_singleton, List.not_mem_nil,
      or_false] at h1 h2
    rcases h1 with rfl | rfl | rfl <;> rcases h2 with rfl | rfl | rfl <;>
      first
        | rfl
        | (simp at n1; done)
        | simp at n2

/-- Witness of `vcpuCost_eq_ratio_mul_memoryCost`: the shape 4096 MiB with 2 vCPU
and the price 0.10 give `memoryCost = 0.10 / 18.4` and `vcpuCost = 7.2 * 0.10 / 18.4`. -/
theorem vcpuCost_eq_ratio_mul_memoryCost_witness :
    (0 : Int) < (sampleExporter.instances.get "t3.medium").VCpu
      ∧ getNormalizedCost sampleExporter.instances (F64.fin (1 / 10)) "t3.medium"
          = (F64.fin (36 / 5 * ((1 / 10) / (92 / 5))), F64.fin ((1 / 10) / (92 / 5))) := by
  have hv : (0 : Int) < (sampleExporter.instances.get "t3.medium").VCpu := by
    simp [sampleExporter, singleCatalog, Catalog.get]
  refine ⟨hv, ?_⟩
  have h := ((vcpuCost_eq_ratio_mul_memoryCost sampleExporter "eu-west-1" (F64.fin (1 / 10))
    "t3.medium" hv).2.1 (1 / 10) rfl (by simp [sampleExporter, singleCatalog, Catalog.get])).2
  rw [h]
  simp [sampleExporter, singleCatalog, Catalog.get, Int.tdiv]
  norm_num


theorem normalizedDivisor_eq (i : Instance) :
    normalizedDivisor i
      = F64.fin ((36 / 5 : ℚ) * (i.VCpu : ℚ) + ((Int.tdiv i.Memory 1024 : Int) : ℚ)) := by
  simp [normalizedDivisor, F64.add, F64.mul, F64.ofInt, cpuMemRelation]

/-- C14 (the code on non-negative shapes): the divisor that `getNormalizedCost`
divides by is `normalizedDivisor` of the catalog entry, and for a shape with
non-negative fields it is zero exactly when `VCpu = 0` and `Memory < 1024`: every
memory size below 1 GiB counts as 0 GiB, so the divisor is zero for shapes that
are not zero-valued. -/
theorem normalizedDivisor_zero_iff (i : Instance) (hm : 0 ≤ i.Memory) (hv : 0 ≤ i.VCpu) :
    (∀ (instances : Catalog) (value : F64) (instanceName : String),
        instances.get instanceName = i →
          (getNormalizedCost instances value instanceName).2
            = F64.div value (normalizedDivisor i))
      ∧ (normalizedDivisor i = F64.fin 0 ↔ i.VCpu = 0 ∧ i.Memory < 1024) := by
  constructor
  · intro instances value instanceName hi
    simp [getNormalizedCost, normalizedDivisor, hi]
  · rw [normalizedDivisor_eq]
    have ht : Int.tdiv i.Memory 1024 = i.Memory / 1024 :=
      Int.tdiv_eq_ediv hm (by norm_num)
    have ht0 : (0 : Int) ≤ i.Memory / 1024 := by omega
    rw [ht]
    constructor
    · intro h
      have hq : (36 / 5 : ℚ) * (i.VCpu : ℚ) + ((i.Memory / 1024 : Int) : ℚ) = 0 := by
        injection h
      have hv1 : (0 : ℚ) ≤ (i.VCpu : ℚ) := by exact_mod_cast hv
      have ht1 : (0 : ℚ) ≤ ((i.Memory / 1024 : Int) : ℚ) := by exact_mod_cast ht0
      have hv2 : (i.VCpu : ℚ) = 0 := le_antisymm (by linarith) hv1
      have ht2 : ((i.Memory / 1024 : Int) : ℚ) = 0 := le_antisymm (by linarith) ht1
      have hv3 : i.VCpu = 0 := by exact_mod_cast hv2
      have ht3 : i.Memory / 1024 = 0 := by exact_mod_cast ht2
      exact ⟨hv3, by omega⟩
    · rintro ⟨hv0, hlt⟩
      have ht3 : i.Memory / 1024 = 0 := by omega
      simp [hv0, ht3]

/-- Witness of `normalizedDivisor_zero_iff`: the shape 512 MiB with 0 vCPU is not
zero-valued and its divisor is zero. -/
theorem normalizedDivisor_zero_iff_witness :
    (⟨512, 0⟩ : Instance) ≠ ⟨0, 0⟩ ∧ normalizedDivisor ⟨512, 0⟩ = F64.fin 0 :=
  ⟨by decide,
    (normalizedDivisor_zero_iff ⟨512, 0⟩ (by decide) (by decide)).2.mpr ⟨rfl, by decide⟩⟩


theorem scrape_totalScrapes (e : Exporter) (p : Provider) (e1 : Exporter)
    (obs : List scrapeResult) (hr : scrape e p = .ok (e1, obs)) :
    e1.totalScrapes = e.totalScrapes + 1 := by
  unfold scrape at hr
  cases hs : scrapeRegions e p e.regions 0 ⟨e.errorCount, []⟩ with
  | error a => simp [hs] at hr
  | ok r =>
    obtain ⟨errorCount, st⟩ := r
    simp only [hs, Except.ok.injEq, Prod.mk.injEq] at hr
    obtain ⟨rfl, -⟩ := hr
    rfl

/-- C15 (counterexample): at `now` equal to `nextScrape`, the state right after
construction, `Collect` runs no scrape cycle: it returns the exporter as it was,
with `totalScrapes` still 0 and the metric set still empty, although the provider
has a spot record to serve; one nanosecond later the cycle runs. -/
theorem Collect_at_nextScrape_runs_no_cycle :
    (100 : Int) ≥ sampleExporter.nextScrape
      ∧ Collect sampleExporter
          (spotProvider [⟨"t3.medium", "0.10", "eu-west-1a", "Linux/UNIX"⟩]) 100
        = .ok sampleExporter
      ∧ sampleExporter.totalScrapes = 0
      ∧ (Collect sampleExporter
          (spotProvider [⟨"t3.medium", "0.10", "eu-west-1a", "Linux/UNIX"⟩]) 101).map
            (fun e1 => e1.totalScrapes) = .ok 1 := by
  refine ⟨by decide, ?_, rfl, ?_⟩
  · simp [Collect, sampleExporter]
  · have hs : scrape (initGauges sampleExporter)
          (spotProvider [⟨"t3.medium", "0.10", "eu-west-1a", "Linux/UNIX"⟩])
        = .ok ({ initGauges sampleExporter with
                   totalScrapes := 1, errorCount := 0, scrapeErrors := F64.fin 0,
                   duration := F64.fin 0 },
               spotResults sampleExporter "eu-west-1"
                 ⟨"t3.medium", "0.10", "eu-west-1a", "Linux/UNIX"⟩ (F64.fin (1 / 10))) := by
      simp [scrape, scrapeRegions, scrapeRegion, inRegions, contains, initGauges,
        sampleExporter, spotProvider, stubProvider, getSpotPricing, spotPages, spotRecord,
        isMatchAny, Run.send, Run.addError, F64.ofInt, spotResults]
    obtain ⟨m1, hset, -, -⟩ := setPricingMetrics_ok _ initMetrics initMetrics_wellFormed
      (scrape_allKnown _ _ _ _ hs)
    rw [Collect_of_scrape sampleExporter _ 101 _ _ m1 (by decide) hs hset]
    rfl

/-- C15 (amended): for every `now` strictly after `nextScrape`, `Collect` runs a
scrape cycle on freshly initialised gauges: it ends as the cycle ends when that
aborts, and otherwise returns with `totalScrapes` one higher, the error gauge of
the cycle, `nextScrape` moved to the cache period after the cycle, and every
value the cycle sent in the metric set; at every `t` up to and including
`nextScrape` it returns the exporter as it was. -/
theorem Collect_after_nextScrape (e : Exporter) (p : Provider) (now : Int)
    (h : e.nextScrape < now) :
    (∀ a, scrape (initGauges e) p = .error a → Collect e p now = .error a)
      ∧ (∀ e2 obs, scrape (initGauges e) p = .ok (e2, obs) →
          ∃ e1, Collect e p now = .ok e1
            ∧ e1.totalScrapes = e.totalScrapes + 1
            ∧ e1.scrapeErrors = e2.scrapeErrors
            ∧ e1.nextScrape = p.nowAfterScrape + wrapInt64 (1000000000 * e.cache)
            ∧ ∀ o ∈ obs, hasSeries e1.pricingMetrics o.Name (seriesKey o) = true)
      ∧ (∀ t, t ≤ e.nextScrape → Collect e p t = .ok e) := by
  refine ⟨?_, ?_, ?_⟩
  · intro a ha
    simp [Collect, h, ha]
  · intro e2 obs hs
    obtain ⟨hm, hcache⟩ := scrape_pricingMetrics _ p e2 obs hs
    have hw : WellFormed e2.pricingMetrics := by
      rw [hm]
      exact initMetrics_wellFormed
    obtain ⟨m1, hset, -, hser⟩ :=
      setPricingMetrics_ok obs e2.pricingMetrics hw (scrape_allKnown _ p e2 obs hs)
    refine ⟨_, Collect_of_scrape e p now e2 obs m1 h hs hset, ?_, rfl, ?_, ?_⟩
    · exact scrape_totalScrapes (initGauges e) p e2 obs hs
    · show p.nowAfterScrape + wrapInt64 (1000000000 * e2.cache) = _
      rw [hcache]
      rfl
    · intro o ho
      exact (hser o.Name (seriesKey o)).mpr (Or.inr ⟨o, ho, rfl, rfl⟩)
  · intro t ht
    unfold Collect
    rw [if_neg (by omega)]

/-- Witness of `Collect_after_nextScrape`: the sample exporter one nanosecond after
`nextScrape`, with a provider that has nothing to serve. -/
theorem Collect_after_nextScrape_witness :
    ∃ e1, Collect sampleExporter stubProvider 101 = .ok e1 ∧ e1.totalScrapes = 1 := by
  have hs : scrape (initGauges sampleExporter) stubProvider
      = .ok ({ initGauges sampleExporter with
                 totalScrapes := 1, errorCount := 0, scrapeErrors := F64.fin 0,
                 duration := F64.fin 0 }, []) := by
    simp [scrape, scrapeRegions, scrapeRegion, inRegions, contains, initGauges,
      sampleExporter, stubProvider, getSpotPricing, spotPages, F64.ofInt]
  obtain ⟨e1, hc, ht, -⟩ :=
    (Collect_after_nextScrape sampleExporter stubProvider 101 (by decide)).2.1 _ _ hs
  exact ⟨e1, hc, ht⟩


end Ec2PriceExporter
